import Mathlib

/-!
# rlib control plane: identity codec, registries, handshake, cluster linking, polling

A shallow embedding of `src/qp_impl.hpp` and `src/rdma_ctrl_impl.hpp`.

* `uint32_t` values are natural numbers below `2 ^ 32`; the conversion of an `int`
  to `uint32_t` is `toU32`, and a left shift in `uint32_t` is reduced modulo `2 ^ 32`.
* A C++ pointer is an `Option`: `none` is `nullptr`.
* `std::map` is an association list with `find`, `insert` and `operator[]` (`index`).
-/

namespace rdmaio

/-! ## Machine integers -/

/-- The value of `static_cast<uint32_t>(i)` for an `int` value `i`. -/
def toU32 (i : Int) : Nat := (i % 4294967296).toNat

/-- The value of an unsigned 32-bit quantity converted to `int` (two's complement). -/
def toInt32 (n : Nat) : Int :=
  if n % 4294967296 < 2147483648 then ((n % 4294967296 : Nat) : Int)
  else ((n % 4294967296 : Nat) : Int) - 4294967296

/-! ## `qp_impl.hpp`: the queue-pair identity codec -/

/-- Enumerator `RC_ID_BASE`. -/
def RC_ID_BASE : Int := 0

/-- Enumerator `UC_ID_BASE`. -/
def UC_ID_BASE : Int := 10000

/-- Enumerator `UD_ID_BASE`. -/
def UD_ID_BASE : Int := 20000

/-- Function `index_mask()`: the constant `0xffff`. -/
def index_mask : Nat := 0xffff

/-- Function `mac_mask()`: `index_mask() << 16` in `uint32_t`. -/
def mac_mask : Nat := (index_mask <<< 16) % 4294967296

/-- Function `encode_qp_id(int m, int idx)`:
`static_cast<uint32_t>(static_cast<uint32_t>(m) << 16) | static_cast<uint32_t>(idx)`. -/
def encode_qp_id (m idx : Int) : Nat :=
  ((toU32 m <<< 16) % 4294967296) ||| toU32 idx

/-- Function `decode_qp_mac(uint32_t key)`: `(key & mac_mask()) >> 16`. -/
def decode_qp_mac (key : Nat) : Nat := (key &&& mac_mask) >>> 16

/-- Function `decode_qp_index(uint32_t key)`: `key & index_mask()`. -/
def decode_qp_index (key : Nat) : Nat := key &&& index_mask

/-- Modelled from the spec: the declaration of `QPIdx` is not in the sources; the
sources build it as `QPIdx { .node_id, .worker_id, .index }` from `int` values and pass
its fields to `int` parameters. -/
structure QPIdx where
  node_id : Int
  worker_id : Int
  index : Int
  deriving DecidableEq, Repr

/-- Method `get_rc_key`: `encode_qp_id(idx.node_id, RC_ID_BASE + idx.worker_id * 64 + idx.index)`. -/
def get_rc_key (idx : QPIdx) : Nat :=
  encode_qp_id idx.node_id (RC_ID_BASE + idx.worker_id * 64 + idx.index)

/-- Method `get_ud_key`: `encode_qp_id(idx.worker_id, UD_ID_BASE + idx.index)`. -/
def get_ud_key (idx : QPIdx) : Nat :=
  encode_qp_id idx.worker_id (UD_ID_BASE + idx.index)

/-! ## Types declared outside the two source files -/

/-- Modelled from the spec: the declaration of `ConnStatus` is not in the sources;
spec section 4.7 lists the statuses SUCC, ERR, TIMEOUT and NOT_READY. -/
inductive ConnStatus where
  | SUCC
  | ERR
  | TIMEOUT
  | NOT_READY
  deriving DecidableEq, Repr

/-- Modelled from the spec: the declaration of `MemoryAttr` is not in the sources;
spec section 6 gives the fields `key : uint32` and `buf : uint64`. -/
structure MemoryAttr where
  buf : Nat
  key : Nat
  deriving DecidableEq, Repr

/-- Modelled from the spec: the declaration of `QPAttr` is not in the sources; spec
section 6 gives queue number, link id, global id (subnet and interface part) and
`nodeId : uint32`. -/
structure QPAttr where
  qpn : Nat
  lid : Nat
  subnet : Nat
  iface : Nat
  node_id : Nat
  deriving DecidableEq, Repr

/-- Modelled from the spec: the enumeration `ConnArg::type` (MR or QP); `other` is any
other value found in a received message. -/
inductive ConnArgType where
  | MR
  | QP
  | other (raw : Nat)
  deriving DecidableEq, Repr

/-- The values `arg.payload.qp.qp_type` is compared with (`IBV_QPT_RC`, `IBV_QPT_UD` of
the verbs library); `other` is any other value. -/
inductive QPType where
  | IBV_QPT_RC
  | IBV_QPT_UD
  | other (raw : Nat)
  deriving DecidableEq, Repr

/-- Modelled from the spec: the declaration of `ConnArg` is not in the sources; spec
section 6 gives `type` and a union payload `mr.mr_id : uint32` or
`qp.{qp_type, from_node, from_worker : uint32}`. The members of the union are kept as
separate fields: the code reads only the member that belongs to `type`. -/
structure ConnArg where
  type : ConnArgType
  mr_id : Nat
  qp_type : QPType
  from_node : Nat
  from_worker : Nat
  deriving DecidableEq, Repr

/-- Modelled from the spec: the declaration of `ConnReply` is not in the sources; spec
section 6 gives `ack` and a union payload, `payload.mr` (a `MemoryAttr`) or `payload.qp`
(a `QPAttr`). The two members are kept as separate fields: the code reads a member only
after it stored that member. -/
structure ConnReply where
  ack : ConnStatus
  payload_mr : MemoryAttr
  payload_qp : QPAttr
  deriving DecidableEq, Repr

/-- Modelled from the spec: the class `Memory` is not in the sources; the sources use
its method `valid()` and its member `rattr`. A value stands for the object that
`new Memory(buf,size,rnic->pd,flag)` builds. -/
structure Memory where
  valid : Bool
  rattr : MemoryAttr
  deriving DecidableEq, Repr

/-- The arguments of `new RNicHandler(idx.dev_id,idx.port_id,ib_ctx,pd,port_attr.lid)`
that are plain data. -/
structure RNicHandler where
  dev_id : Int
  port_id : Int
  lid : Nat
  deriving DecidableEq, Repr

/-- The dynamic type of a queue pair object: `RCQP` or `UDQP`. -/
inductive QPRole where
  | RC
  | UD
  deriving DecidableEq, Repr

/-- A queue pair object on the heap: its address (the pointer value), its dynamic type
and the arguments its constructor received (`dev`, `idx`, and the memory attribute,
`none` for the two-argument constructor). -/
structure QP where
  addr : Nat
  role : QPRole
  dev : Option RNicHandler
  idx : QPIdx
  local_mr : Option MemoryAttr
  deriving DecidableEq, Repr

/-- The expression `dynamic_cast<RCQP *>(p)` (role RC) or `dynamic_cast<UDQP *>(p)`
(role UD): a null pointer stays null, an object of the other class gives null. -/
def dynamic_cast (role : QPRole) (p : Option QP) : Option QP :=
  match p with
  | none => none
  | some q => if q.role = role then some q else none

/-! ## `std::map` -/

/-- A `std::map<K,V>`: the list of its entries. -/
structure StdMap (K V : Type) where
  entries : List (K × V)
  deriving DecidableEq, Repr

/-- Lookup in the list of entries. -/
def StdMap.lookup {K V : Type} [DecidableEq K] : List (K × V) → K → Option V
  | [], _ => none
  | (k', v) :: rest, k => if k' = k then some v else StdMap.lookup rest k

/-- The call `m.find(k)`: `none` stands for `m.end()`, `some v` for an iterator to the
entry `(k, v)`. -/
def StdMap.find {K V : Type} [DecidableEq K] (m : StdMap K V) (k : K) : Option V :=
  StdMap.lookup m.entries k

/-- The call `m.insert(std::make_pair(k, v))`: nothing happens when `k` has an entry. -/
def StdMap.insert {K V : Type} [DecidableEq K] (m : StdMap K V) (k : K) (v : V) :
    StdMap K V :=
  match m.find k with
  | some _ => m
  | none => ⟨(k, v) :: m.entries⟩

/-- The expression `m[k]`: the mapped value; when `k` has no entry, one with the
value-initialised `dflt` is inserted first. -/
def StdMap.index {K V : Type} [DecidableEq K] (m : StdMap K V) (k : K) (dflt : V) :
    V × StdMap K V :=
  match m.find k with
  | some v => (v, m)
  | none => (dflt, ⟨(k, dflt) :: m.entries⟩)

/-! ## `rdma_ctrl_impl.hpp`: the registries -/

/-- The data members of `RdmaCtrlImpl` the registries use. `news` is a ghost counter:
the number of `new RCQP` and `new UDQP` expressions evaluated so far; it also serves as
the address of the next object. -/
structure RdmaCtrlImpl where
  node_id_ : Int
  tcp_base_port_ : Int
  mrs_ : StdMap Int (Option Memory)
  qps_ : StdMap Nat (Option QP)
  news : Nat
  deriving DecidableEq, Repr

/-- The state right after the constructor: both maps empty. -/
def RdmaCtrlImpl.init (node_id tcp_base_port : Int) : RdmaCtrlImpl :=
  { node_id_ := node_id, tcp_base_port_ := tcp_base_port, mrs_ := ⟨[]⟩, qps_ := ⟨[]⟩,
    news := 0 }

/-- Everything the two source files use but do not define: the helpers `create_rc_idx`
and `create_ud_idx`, the methods `QP::get_attr` and `UDQP::ready`, the two `sizeof`
constants, and the indeterminate contents of locals declared without initialiser. -/
structure Env where
  create_rc_idx : Nat → Nat → QPIdx
  create_ud_idx : Nat → Nat → QPIdx
  get_attr : QP → QPAttr
  ready : QP → Bool
  sizeof_ConnArg : Nat
  sizeof_ConnReply : Nat
  uninit_arg : ConnArg
  uninit_reply : ConnReply
  uninit_attr : MemoryAttr

/-- Method `get_rc_qp`. -/
def get_rc_qp (s : RdmaCtrlImpl) (idx : QPIdx) : Option QP × RdmaCtrlImpl :=
  let qid := get_rc_key idx
  match s.qps_.find qid with
  | none => (none, s)
  | some _ =>
    let r := s.qps_.index qid none
    (dynamic_cast QPRole.RC r.1, { s with qps_ := r.2 })

/-- Method `get_ud_qp`. -/
def get_ud_qp (s : RdmaCtrlImpl) (idx : QPIdx) : Option QP × RdmaCtrlImpl :=
  let qid := get_ud_key idx
  match s.qps_.find qid with
  | none => (none, s)
  | some _ =>
    let r := s.qps_.index qid none
    (dynamic_cast QPRole.UD r.1, { s with qps_ := r.2 })

/-- Method `create_rc_qp`; `attr = none` is `attr == NULL`. -/
def create_rc_qp (s : RdmaCtrlImpl) (idx : QPIdx) (dev : Option RNicHandler)
    (attr : Option MemoryAttr) : Option QP × RdmaCtrlImpl :=
  let qid := get_rc_key idx
  match s.qps_.find qid with
  | some _ =>
    let r := s.qps_.index qid none
    (dynamic_cast QPRole.RC r.1, { s with qps_ := r.2 })
  | none =>
    let res : QP :=
      match attr with
      | none => { addr := s.news, role := QPRole.RC, dev := dev, idx := idx, local_mr := none }
      | some a => { addr := s.news, role := QPRole.RC, dev := dev, idx := idx, local_mr := some a }
    (some res, { s with qps_ := s.qps_.insert qid (some res), news := s.news + 1 })

/-- Method `create_ud_qp`; `attr = none` is `attr == NULL`. -/
def create_ud_qp (s : RdmaCtrlImpl) (idx : QPIdx) (dev : Option RNicHandler)
    (attr : Option MemoryAttr) : Option QP × RdmaCtrlImpl :=
  let qid := get_ud_key idx
  match s.qps_.find qid with
  | some _ =>
    let r := s.qps_.index qid none
    (dynamic_cast QPRole.UD r.1, { s with qps_ := r.2 })
  | none =>
    let res : QP :=
      match attr with
      | none => { addr := s.news, role := QPRole.UD, dev := dev, idx := idx, local_mr := none }
      | some a => { addr := s.news, role := QPRole.UD, dev := dev, idx := idx, local_mr := some a }
    (some res, { s with qps_ := s.qps_.insert qid (some res), news := s.news + 1 })

/-- Method `register_memory`; `m` is the object `new Memory(buf,size,rnic->pd,flag)`
built. -/
def register_memory (s : RdmaCtrlImpl) (mr_id : Int) (m : Memory) : Bool × RdmaCtrlImpl :=
  if !m.valid then (false, s)
  else
    match s.mrs_.find mr_id with
    | some _ => (true, s)
    | none => (true, { s with mrs_ := s.mrs_.insert mr_id (some m) })

/-- Method `get_local_mr`. The first component is `none` when the method dereferences a
null pointer stored in `mrs_`; an id without entry gives the uninitialised local. -/
def get_local_mr (e : Env) (s : RdmaCtrlImpl) (mr_id : Int) :
    Option MemoryAttr × RdmaCtrlImpl :=
  match s.mrs_.find mr_id with
  | none => (some e.uninit_attr, s)
  | some _ =>
    let r := s.mrs_.index mr_id none
    match r.1 with
    | none => (none, { s with mrs_ := r.2 })
    | some mem => (some mem.rattr, { s with mrs_ := r.2 })

/-! ## `rdma_ctrl_impl.hpp`: the listener -/

/-- The part of one `connection_handler` iteration that builds the reply to a fully
received request `arg` (from `ConnReply reply; reply.ack = ERR;` to the last
`lock_.unlock()`). The first component is the reply handed to `send_to`; it is `none`
when the MR case dereferences a null pointer stored in `mrs_`. -/
def connection_handler_reply (e : Env) (s : RdmaCtrlImpl) (arg : ConnArg) :
    Option ConnReply × RdmaCtrlImpl :=
  let reply : ConnReply := { e.uninit_reply with ack := ConnStatus.ERR }
  match arg.type with
  | ConnArgType.MR =>
    match s.mrs_.find (toInt32 arg.mr_id) with
    | some _ =>
      let r := s.mrs_.index (toInt32 arg.mr_id) none
      match r.1 with
      | none => (none, { s with mrs_ := r.2 })
      | some mem =>
        (some { reply with payload_mr := mem.rattr, ack := ConnStatus.SUCC },
          { s with mrs_ := r.2 })
    | none => (some reply, s)
  | ConnArgType.QP =>
    let found : Option QP × RdmaCtrlImpl :=
      match arg.qp_type with
      | QPType.IBV_QPT_UD =>
        let r := get_ud_qp s (e.create_ud_idx arg.from_node arg.from_worker)
        match r.1 with
        | none => (none, r.2)
        | some ud_qp => if e.ready ud_qp then (some ud_qp, r.2) else (none, r.2)
      | QPType.IBV_QPT_RC =>
        get_rc_qp s (e.create_rc_idx arg.from_node arg.from_worker)
      | QPType.other _ => (none, s)
    let reply1 : ConnReply :=
      match found.1 with
      | some qp => { reply with payload_qp := e.get_attr qp, ack := ConnStatus.SUCC }
      | none => reply
    (some { reply1 with payload_qp := { reply1.payload_qp with node_id := toU32 s.node_id_ } },
      found.2)
  | ConnArgType.other _ => (some reply, s)

/-! ## `qp_impl.hpp`: the handshake client -/

/-- What the socket calls of one `get_remote_helper` run return: the descriptor from
`get_send_socket`, the result of `send`, the result of `wait_recv`, the result of `recv`
and the content of `*reply` after `recv`. -/
structure Exchange where
  socket : Int
  send_n : Int
  wait_recv : Bool
  recv_n : Int
  received : ConnReply
  deriving DecidableEq, Repr

/-- Method `QPImpl::get_remote_helper`; `net ip port arg` gives what the socket calls
return when `arg` is sent to `ip:port`. The result is the returned status and the final
content of `*reply`. -/
def get_remote_helper (e : Env) (net : String → Int → ConnArg → Exchange) (arg : ConnArg)
    (reply : ConnReply) (ip : String) (port : Int) : ConnStatus × ConnReply :=
  let x := net ip port arg
  if x.socket < 0 then (ConnStatus.ERR, reply)
  else if x.send_n ≠ (e.sizeof_ConnArg : Int) then (ConnStatus.ERR, reply)
  else if !x.wait_recv then (ConnStatus.TIMEOUT, reply)
  else if x.recv_n ≠ (e.sizeof_ConnReply : Int) then (ConnStatus.ERR, x.received)
  else if x.received.ack ≠ ConnStatus.SUCC then (ConnStatus.NOT_READY, x.received)
  else (ConnStatus.SUCC, x.received)

/-- Method `QPImpl::get_remote_mr`; the result is the returned status and the final
content of `*attr`. -/
def get_remote_mr (e : Env) (net : String → Int → ConnArg → Exchange) (ip : String)
    (port : Int) (mr_id : Int) (attr : MemoryAttr) : ConnStatus × MemoryAttr :=
  let arg : ConnArg := { e.uninit_arg with type := ConnArgType.MR, mr_id := toU32 mr_id }
  let r := get_remote_helper e net arg e.uninit_reply ip port
  if r.1 = ConnStatus.SUCC then
    (r.1, { attr with key := r.2.payload_mr.key, buf := r.2.payload_mr.buf })
  else (r.1, attr)

/-! ## `rdma_ctrl_impl.hpp`: cluster linking -/

/-- The outside world of one `link_symmetric_rcqps` run: what the socket calls of the
`n`-th remote-MR fetch return, and what the `n`-th call of `qp->connect` returns. -/
structure World where
  net : Nat → String → Int → ConnArg → Exchange
  connect : Nat → ConnStatus

/-- Ghost record of one `qp->connect(s,tcp_base_port_)` call: the address `s`, the value
of `i`, the queue pair, the argument of the `bind_remote_mr` call just before, and the
returned status. -/
structure ConnectEvent where
  peer : String
  slot : Nat
  qp : QP
  bound_mr : MemoryAttr
  rc : ConnStatus
  deriving DecidableEq, Repr

/-- The `retry:` loop of `link_symmetric_rcqps` for one address `s`: fetch until the
status is SUCC. `n` counts the fetches made so far; `none` means the loop is still
running when `fuel` fetches have been made. -/
def fetch_retry (e : Env) (w : World) (port : Int) (mr_id : Int) (s : String) :
    Nat → Nat → Option (MemoryAttr × Nat)
  | 0, _ => none
  | fuel + 1, n =>
    let r := get_remote_mr e (w.net n) s port mr_id e.uninit_attr
    if r.1 ≠ ConnStatus.SUCC then fetch_retry e w port mr_id s fuel (n + 1)
    else some (r.2, n + 1)

/-- The first `for(auto s : cluster)` loop of `link_symmetric_rcqps`: the vector `mrs`. -/
def fetch_all (e : Env) (w : World) (port : Int) (mr_id : Int) (fuel : Nat) :
    List String → Nat → Option (List MemoryAttr × Nat)
  | [], n => some ([], n)
  | s :: rest, n =>
    match fetch_retry e w port mr_id s fuel n with
    | none => none
    | some (mr, n1) =>
      match fetch_all e w port mr_id fuel rest n1 with
      | none => none
      | some (mrs, n2) => some (mr :: mrs, n2)

/-- The variables of the `while(true)` loop of `link_symmetric_rcqps`, with the ghost
count of connect calls and the ghost list of connect events. -/
structure LinkState where
  ctrl : RdmaCtrlImpl
  ready_list : List Bool
  i : Nat
  connected : Nat
  attempts : Nat
  trace : List ConnectEvent
  deriving DecidableEq, Repr

/-- The inner `for(auto s : cluster)` loop of the `while(true)` loop. `none` means the
run stops abnormally: `RDMA_ASSERT(qp != nullptr)` fails or a vector is read out of
range. -/
def link_scan (w : World) (dev : Option RNicHandler) (local_mr : MemoryAttr)
    (mrs : List MemoryAttr) (wid idx : Int) : List String → LinkState → Option LinkState
  | [], st => some st
  | s :: rest, st =>
    match st.ready_list[st.i]? with
    | none => none
    | some true =>
      link_scan w dev local_mr mrs wid idx rest
        { st with i := st.i + 1, connected := st.connected + 1 }
    | some false =>
      let c := create_rc_qp st.ctrl { node_id := (st.i : Int), worker_id := wid, index := idx }
        dev (some local_mr)
      match c.1 with
      | none => none
      | some qp =>
        match mrs[st.i]? with
        | none => none
        | some mr =>
          let rc := w.connect st.attempts
          let ev : ConnectEvent :=
            { peer := s, slot := st.i, qp := qp, bound_mr := mr, rc := rc }
          if rc = ConnStatus.SUCC then
            link_scan w dev local_mr mrs wid idx rest
              { ctrl := c.2, ready_list := st.ready_list.set st.i true, i := st.i + 1,
                connected := st.connected + 1, attempts := st.attempts + 1,
                trace := st.trace ++ [ev] }
          else
            link_scan w dev local_mr mrs wid idx rest
              { st with ctrl := c.2, attempts := st.attempts + 1, trace := st.trace ++ [ev] }

/-- The `while(true)` loop of `link_symmetric_rcqps`; `none` means an abnormal stop of
`link_scan` or that the loop is still running after `fuel` rounds. -/
def link_rounds (w : World) (dev : Option RNicHandler) (local_mr : MemoryAttr)
    (mrs : List MemoryAttr) (wid idx : Int) (cluster : List String) :
    Nat → LinkState → Option LinkState
  | 0, _ => none
  | fuel + 1, st =>
    match link_scan w dev local_mr mrs wid idx cluster { st with i := 0, connected := 0 } with
    | none => none
    | some st1 =>
      if st1.connected = cluster.length then some st1
      else link_rounds w dev local_mr mrs wid idx cluster fuel st1

/-- Method `link_symmetric_rcqps`; `dev` is what `get_device()` returns. The result is
the returned value with the final loop variables; `none` means the method has not
returned within `fuel` fetches per peer and `fuel` rounds, or stopped abnormally. -/
def link_symmetric_rcqps (e : Env) (w : World) (dev : Option RNicHandler)
    (s : RdmaCtrlImpl) (cluster : List String) (l_mrid mr_id wid idx : Int) (fuel : Nat) :
    Option (Bool × LinkState) :=
  let ready_list := List.replicate cluster.length false
  let l := get_local_mr e s l_mrid
  match l.1 with
  | none => none
  | some local_mr =>
    match fetch_all e w s.tcp_base_port_ mr_id fuel cluster 0 with
    | none => none
    | some (mrs, _) =>
      match link_rounds w dev local_mr mrs wid idx cluster fuel
          { ctrl := l.2, ready_list := ready_list, i := 0, connected := 0, attempts := 0,
            trace := [] } with
      | none => none
      | some st => some (true, st)

/-! ## A concrete environment for evaluating the definitions -/

/-- A concrete environment: `create_rc_idx(nid,wid)` is (nid, wid, 0), `create_ud_idx(wid,idx)`
is (0, wid, idx), a queue pair reports queue number `addr + 100` and link id 1, and a
queue pair is ready when its constructor got a memory attribute. -/
def Env.demo : Env :=
  { create_rc_idx := fun nid wid => { node_id := nid, worker_id := wid, index := 0 },
    create_ud_idx := fun wid idx => { node_id := 0, worker_id := wid, index := idx },
    get_attr := fun q => { qpn := q.addr + 100, lid := 1, subnet := 0, iface := 0, node_id := 0 },
    ready := fun q => q.local_mr.isSome,
    sizeof_ConnArg := 16,
    sizeof_ConnReply := 40,
    uninit_arg := { type := ConnArgType.other 0, mr_id := 0, qp_type := QPType.other 0,
                    from_node := 0, from_worker := 0 },
    uninit_reply := { ack := ConnStatus.NOT_READY, payload_mr := { buf := 0, key := 0 },
                      payload_qp := { qpn := 0, lid := 0, subnet := 0, iface := 0, node_id := 0 } },
    uninit_attr := { buf := 0, key := 0 } }

/-- A concrete world: every remote-MR fetch succeeds at once, with attributes (buf 4096,
key 1) from the address 10.0.0.1 and (buf 8192, key 2) from any other address; the first
`qp->connect` call returns ERR and every later one returns SUCC. -/
def World.demo : World :=
  { net := fun _ ip _ _ =>
      { socket := 3, send_n := 16, wait_recv := true, recv_n := 40,
        received :=
          { ack := ConnStatus.SUCC,
            payload_mr := if ip = "10.0.0.1" then { buf := 4096, key := 1 }
                          else { buf := 8192, key := 2 },
            payload_qp := { qpn := 0, lid := 0, subnet := 0, iface := 0, node_id := 0 } } },
    connect := fun n => if n = 0 then ConnStatus.ERR else ConnStatus.SUCC }

/-! ## `qp_impl.hpp`: completion polling -/

/-- The two fields of `struct timeval`. -/
structure Timeval where
  tv_sec : Int
  tv_usec : Int
  deriving DecidableEq, Repr

/-- The outside world of one `poll_till_completion` run: the result of the `n`-th
`ibv_poll_cq` call, whether `wc.status == IBV_WC_SUCCESS` holds after it, and the `n`-th
reading of `gettimeofday` (reading 0 is `start_time`, reading `n + 1` is the `cur_time`
taken after the `n`-th poll). -/
structure PollWorld where
  poll : Nat → Int
  wc_success : Nat → Bool
  now : Nat → Timeval

/-- How a `poll_till_completion` run ends: whether an `RDMA_ASSERT` was evaluated with a
false condition, the value of the `return` statement that follows it, and (ghost) the
number of `ibv_poll_cq` calls made. The macro `RDMA_ASSERT` is not in the sources; when a
failed assertion stops the process, `ret` is never delivered to the caller. -/
structure PollEnd where
  failed_assert : Bool
  ret : ConnStatus
  polls : Nat
  deriving DecidableEq, Repr

/-- The value a 64-bit signed computation takes in two's complement when the exact
result is `i` (`time_t`, `suseconds_t` and `int64_t` are 64 bits wide here; the standard
leaves signed overflow undefined, this is what the hardware does). -/
def wrap_i64 (i : Int) : Int :=
  (i + 9223372036854775808) % 18446744073709551616 - 9223372036854775808

/-- The limit `timeout.tv_sec * 1000 + timeout.tv_usec` of the loop condition, computed
operation by operation in 64-bit arithmetic. -/
def poll_limit (timeout : Timeval) : Int :=
  wrap_i64 (wrap_i64 (timeout.tv_sec * 1000) + timeout.tv_usec)

/-- The `do ... while` loop of `poll_till_completion`, entered for the `n`-th poll:
`poll_result` at the exit and the index of the last poll. `diff_time` is the helper of
that name, which is not in the sources; it gives the value stored in `int64_t diff`.
`none` means the loop is still running after `fuel` iterations. -/
def poll_loop (diff_time : Timeval → Timeval → Int) (w : PollWorld) (timeout : Timeval) :
    Nat → Nat → Option (Int × Nat)
  | 0, _ => none
  | fuel + 1, n =>
    let poll_result := w.poll n
    let cur_time := w.now (n + 1)
    let diff := diff_time cur_time (w.now 0)
    if poll_result = 0 ∧ diff ≤ poll_limit timeout then
      poll_loop diff_time w timeout fuel (n + 1)
    else some (poll_result, n)

/-- Method `QPImpl::poll_till_completion`. -/
def poll_till_completion (diff_time : Timeval → Timeval → Int) (w : PollWorld)
    (timeout : Timeval) (fuel : Nat) : Option PollEnd :=
  match poll_loop diff_time w timeout fuel 0 with
  | none => none
  | some (poll_result, n) =>
    if poll_result = 0 then
      some { failed_assert := true, ret := ConnStatus.TIMEOUT, polls := n + 1 }
    else if poll_result < 0 then
      some { failed_assert := true, ret := ConnStatus.ERR, polls := n + 1 }
    else
      some { failed_assert := !w.wc_success n, ret := ConnStatus.SUCC, polls := n + 1 }

/-- A concrete clock difference in milliseconds:
`(end.tv_sec - start.tv_sec) * 1000 + (end.tv_usec - start.tv_usec) / 1000`. -/
def diff_time_ms (end_time start_time : Timeval) : Int :=
  (end_time.tv_sec - start_time.tv_sec) * 1000 + (end_time.tv_usec - start_time.tv_usec) / 1000

/-- A concrete polling world: no completion ever arrives and the clock advances by one
millisecond per reading. -/
def PollWorld.idle : PollWorld :=
  { poll := fun _ => 0,
    wc_success := fun _ => true,
    now := fun n => { tv_sec := 0, tv_usec := 1000 * (n : Int) } }

/-! ## `rdma_ctrl_impl.hpp`: port index conversion -/

/-- Modelled from the spec: the declaration of `RNicInfo` is not in the sources;
`convert_port_idx` uses only the size of its member `active_ports`. -/
structure RNicInfo where
  active_ports : List Nat
  deriving DecidableEq, Repr

/-- The structure `RdmaCtrl::DevIdx` with its members `dev_id` and `port_id`. -/
structure DevIdx where
  dev_id : Int
  port_id : Int
  deriving DecidableEq, Repr

/-- The value an `int` computation takes in two's complement when the exact result is
`i` (the standard leaves signed overflow undefined; this is what the hardware does). -/
def wrap_int (i : Int) : Int := (i + 2147483648) % 4294967296 - 2147483648

/-- The inner loop `for(int port_id = 1; port_id <= port_num; port_id++)` of
`convert_port_idx`, entered with `k = port_num - port_id + 1` ports left: either the
returned `DevIdx` or the value of `idx` after the loop. -/
def port_loop (dev_id : Int) : Nat → Int → Int → DevIdx ⊕ Int
  | 0, _, idx => Sum.inr idx
  | k + 1, port_id, idx =>
    if idx = 0 then Sum.inl { dev_id := dev_id, port_id := port_id }
    else port_loop dev_id k (port_id + 1) (wrap_int (idx - 1))

/-- The outer loop `for(int dev_id = 0; dev_id < cached_infos_.size(); ++dev_id)` of
`convert_port_idx`, entered at `dev_id` with the devices from `dev_id` on, and the final
`return DevIdx {.dev_id = -1,.port_id = -1}`. -/
def dev_loop : List RNicInfo → Int → Int → DevIdx
  | [], _, _ => { dev_id := -1, port_id := -1 }
  | info :: rest, dev_id, idx =>
    match port_loop dev_id info.active_ports.length 1 idx with
    | Sum.inl found => found
    | Sum.inr idx1 => dev_loop rest (dev_id + 1) idx1

/-- Method `convert_port_idx`; `queried` is the content of `cached_infos_` after the call
of `query_devs()`, which is made when the cache is empty. -/
def convert_port_idx (cached_infos_ queried : List RNicInfo) (idx : Int) : DevIdx :=
  let infos := if cached_infos_.length = 0 then queried else cached_infos_
  dev_loop infos 0 idx

/-- The numbers of active ports of the cached devices, in order. -/
def port_counts (infos : List RNicInfo) : List Nat :=
  infos.map (fun info => info.active_ports.length)

/-- The total number of active ports of the cached devices. -/
def total_ports (infos : List RNicInfo) : Nat := (port_counts infos).sum

/-! ## `rdma_ctrl_impl.hpp`: the event trace of one listener iteration -/

/-- The calls of one `connection_handler` iteration that the lock discipline is about:
`lock_.lock()`, `lock_.unlock()`, and the socket calls `accept`, `wait_recv`, `recv`,
`send_to`, `wait_close` and `close`. -/
inductive Event where
  | lock
  | unlock
  | accept
  | wait_recv
  | recv
  | send_to
  | wait_close
  | close
  deriving DecidableEq, Repr

/-- The socket calls that can block: accepting, waiting for input, reading, writing and
waiting for the peer to close. -/
def Event.blocking : Event → Bool
  | Event.accept => true
  | Event.wait_recv => true
  | Event.recv => true
  | Event.send_to => true
  | Event.wait_close => true
  | _ => false

/-- The lock calls of method `get_rc_qp`, path by path. -/
def get_rc_qp_events (s : RdmaCtrlImpl) (idx : QPIdx) : List Event :=
  match s.qps_.find (get_rc_key idx) with
  | none => [Event.lock, Event.unlock]
  | some _ => [Event.lock, Event.unlock]

/-- The lock calls of method `get_ud_qp`, path by path. -/
def get_ud_qp_events (s : RdmaCtrlImpl) (idx : QPIdx) : List Event :=
  match s.qps_.find (get_ud_key idx) with
  | none => [Event.lock, Event.unlock]
  | some _ => [Event.lock, Event.unlock]

/-- The calls made inside `switch(arg.type)` of `connection_handler`, between the
`lock_.lock()` before the switch and the `lock_.unlock()` after it. -/
def dispatch_events (e : Env) (s : RdmaCtrlImpl) (arg : ConnArg) : List Event :=
  match arg.type with
  | ConnArgType.MR => []
  | ConnArgType.QP =>
    match arg.qp_type with
    | QPType.IBV_QPT_UD =>
      [Event.unlock] ++ get_ud_qp_events s (e.create_ud_idx arg.from_node arg.from_worker)
        ++ [Event.lock]
    | QPType.IBV_QPT_RC =>
      [Event.unlock] ++ get_rc_qp_events s (e.create_rc_idx arg.from_node arg.from_worker)
        ++ [Event.lock]
    | QPType.other _ => []
  | ConnArgType.other _ => []

/-- What the socket calls of one `connection_handler` iteration return: the descriptor
from `accept`, the result of `wait_recv`, the result of `recv` and the received request. -/
structure Accepted where
  csfd : Int
  wait_recv : Bool
  recv_n : Int
  arg : ConnArg
  deriving DecidableEq, Repr

/-- One iteration of the `while(running_)` loop of `connection_handler`: the calls it
makes in order, the reply handed to `send_to` (`none` when none is sent) and the state
after it. When the MR case dereferences a null pointer the trace ends inside the
switch. -/
def connection_handler_iter (e : Env) (s : RdmaCtrlImpl) (c : Accepted) :
    List Event × Option ConnReply × RdmaCtrlImpl :=
  if c.csfd < 0 then ([Event.accept], none, s)
  else if !c.wait_recv then ([Event.accept, Event.wait_recv, Event.close], none, s)
  else if c.recv_n ≠ (e.sizeof_ConnArg : Int) then
    ([Event.accept, Event.wait_recv, Event.recv, Event.close], none, s)
  else
    let r := connection_handler_reply e s c.arg
    match r.1 with
    | none =>
      ([Event.accept, Event.wait_recv, Event.recv, Event.lock] ++ dispatch_events e s c.arg,
        none, r.2)
    | some reply =>
      ([Event.accept, Event.wait_recv, Event.recv, Event.lock] ++ dispatch_events e s c.arg
          ++ [Event.unlock, Event.send_to, Event.wait_close],
        some reply, r.2)

/-- The lock discipline on a trace, started with `lock_` held or not: `lock_` is not
acquired while held, not released while free, and no blocking socket call is made while
it is held. -/
def disciplined : Bool → List Event → Bool
  | _, [] => true
  | held, ev :: rest =>
    match ev with
    | Event.lock => !held && disciplined true rest
    | Event.unlock => held && disciplined false rest
    | _ => (!(ev.blocking && held)) && disciplined held rest

/-- Whether `lock_` is held at the end of a trace. -/
def held_after : Bool → List Event → Bool
  | held, [] => held
  | held, ev :: rest =>
    match ev with
    | Event.lock => held_after true rest
    | Event.unlock => held_after false rest
    | _ => held_after held rest

/-! ## Lemmas on the codec -/

theorem toU32_of_lt (m : Int) (h0 : 0 ≤ m) (h1 : m < 4294967296) : toU32 m = m.toNat := by
  unfold toU32
  rw [Int.emod_eq_of_lt h0 h1]

theorem shl16_or_eq (a b : Nat) (ha : a < 65536) (hb : b < 65536) :
    ((a <<< 16) % 4294967296) ||| b = 65536 * a + b := by
  rw [Nat.shiftLeft_eq]
  have h : a * 2 ^ 16 % 4294967296 = 2 ^ 16 * a := by omega
  rw [h, ← Nat.mul_add_lt_is_or (by simpa using hb) a]

theorem shiftRight_and_mask (k n : Nat) :
    (k &&& (2 ^ n - 1) <<< n) >>> n = (k >>> n) &&& (2 ^ n - 1) := by
  apply Nat.eq_of_testBit_eq
  intro i
  simp [Nat.testBit_shiftRight, Nat.testBit_and, Nat.testBit_shiftLeft,
    Nat.testBit_two_pow_sub_one, Bool.and_comm]

theorem decode_qp_mac_eq (k : Nat) : decode_qp_mac k = (k / 65536) % 65536 := by
  unfold decode_qp_mac mac_mask index_mask
  have h : (65535 <<< 16) % 4294967296 = (2 ^ 16 - 1) <<< 16 := by decide
  rw [h, shiftRight_and_mask k 16, Nat.and_pow_two_sub_one_eq_mod, Nat.shiftRight_eq_div_pow]

theorem decode_qp_index_eq (k : Nat) : decode_qp_index k = k % 65536 := by
  unfold decode_qp_index index_mask
  exact Nat.and_pow_two_sub_one_eq_mod k 16

/-- Within the 16-bit ranges the key is `65536 * m + idx`. -/
theorem encode_qp_id_eq (m idx : Int) (hm0 : 0 ≤ m) (hm : m < 65536)
    (hi0 : 0 ≤ idx) (hi : idx < 65536) :
    encode_qp_id m idx = 65536 * m.toNat + idx.toNat := by
  unfold encode_qp_id
  rw [toU32_of_lt m hm0 (by omega), toU32_of_lt idx hi0 (by omega)]
  exact shl16_or_eq _ _ (by omega) (by omega)

/-- Two keys built from 16-bit fields agree only when both fields agree. -/
theorem encode_qp_id_inj (m idx m' idx' : Int) (hm0 : 0 ≤ m) (hm : m < 65536)
    (hi0 : 0 ≤ idx) (hi : idx < 65536) (hm0' : 0 ≤ m') (hm' : m' < 65536)
    (hi0' : 0 ≤ idx') (hi' : idx' < 65536)
    (h : encode_qp_id m idx = encode_qp_id m' idx') : m = m' ∧ idx = idx' := by
  rw [encode_qp_id_eq m idx hm0 hm hi0 hi, encode_qp_id_eq m' idx' hm0' hm' hi0' hi'] at h
  omega

/-! ## Theorems on the codec -/

/-- C1: for `0 ≤ m < 65536` and `0 ≤ idx < 65536`, decoding the key `encode_qp_id m idx`
gives back `m` as the mac field and `idx` as the index field. -/
theorem qp_id_roundtrip (m idx : Int) (hm0 : 0 ≤ m) (hm : m < 65536)
    (hi0 : 0 ≤ idx) (hi : idx < 65536) :
    (decode_qp_mac (encode_qp_id m idx) : Int) = m ∧
      (decode_qp_index (encode_qp_id m idx) : Int) = idx := by
  rw [decode_qp_mac_eq, decode_qp_index_eq, encode_qp_id_eq m idx hm0 hm hi0 hi]
  omega

theorem qp_id_roundtrip_witness :
    (decode_qp_mac (encode_qp_id 5 20000) : Int) = 5 ∧
      (decode_qp_index (encode_qp_id 5 20000) : Int) = 20000 :=
  qp_id_roundtrip 5 20000 (by decide) (by decide) (by decide) (by decide)

/-! ## Lemmas on `std::map` -/

theorem StdMap.index_of_find {K V : Type} [DecidableEq K] (m : StdMap K V) (k : K) (d v : V)
    (h : m.find k = some v) : m.index k d = (v, m) := by
  unfold StdMap.index
  rw [h]

theorem StdMap.find_insert_self {K V : Type} [DecidableEq K] (m : StdMap K V) (k : K) (v : V)
    (h : m.find k = none) : (m.insert k v).find k = some v := by
  unfold StdMap.insert
  rw [h]
  simp [StdMap.find, StdMap.lookup]

/-! ## Theorems on the keys -/

/-- C2 (as stated, refuted): the UD identities (node 0, worker 1, index 0) and
(node 1, worker 1, index 0) are distinct, lie in the stated ranges and get the same
UD key. -/
theorem ud_key_ignores_node_id :
    (({ node_id := 0, worker_id := 1, index := 0 } : QPIdx)
        ≠ { node_id := 1, worker_id := 1, index := 0 }) ∧
      ((0 : Int) ≤ 1 ∧ (1 : Int) < 65536 ∧ (0 : Int) < 64 ∧ (20000 : Int) + 0 < 65536) ∧
      get_ud_key { node_id := 0, worker_id := 1, index := 0 }
        = get_ud_key { node_id := 1, worker_id := 1, index := 0 } := by
  decide

/-- C2 (amended): within the stated ranges, two RC identities with the same RC key are
equal, and two UD identities have the same UD key exactly when they agree on `worker_id`
and `index`; `node_id` does not enter the UD key. -/
theorem same_role_keys (a b : QPIdx)
    (han : 0 ≤ a.node_id ∧ a.node_id < 65536) (haw : 0 ≤ a.worker_id ∧ a.worker_id < 65536)
    (hai : 0 ≤ a.index ∧ a.index < 64)
    (hbn : 0 ≤ b.node_id ∧ b.node_id < 65536) (hbw : 0 ≤ b.worker_id ∧ b.worker_id < 65536)
    (hbi : 0 ≤ b.index ∧ b.index < 64) :
    (a.worker_id * 64 + a.index < 65536 → b.worker_id * 64 + b.index < 65536 →
        get_rc_key a = get_rc_key b → a = b) ∧
      (get_ud_key a = get_ud_key b ↔ a.worker_id = b.worker_id ∧ a.index = b.index) := by
  obtain ⟨an, aw, ai⟩ := a
  obtain ⟨bn, bw, bi⟩ := b
  simp only at han haw hai hbn hbw hbi
  refine ⟨?_, ?_⟩
  · intro h1 h2 h
    simp only at h1 h2
    simp only [get_rc_key, RC_ID_BASE] at h
    have := encode_qp_id_inj _ _ _ _ han.1 han.2 (by omega) (by omega) hbn.1 hbn.2
      (by omega) (by omega) h
    simp only [QPIdx.mk.injEq]
    omega
  · simp only [get_ud_key, UD_ID_BASE]
    constructor
    · intro h
      have := encode_qp_id_inj _ _ _ _ haw.1 haw.2 (by omega) (by omega) hbw.1 hbw.2
        (by omega) (by omega) h
      omega
    · rintro ⟨h3, h4⟩
      rw [h3, h4]

theorem same_role_keys_witness :
    (get_rc_key { node_id := 1, worker_id := 2, index := 3 }
        = get_rc_key { node_id := 1, worker_id := 2, index := 3 } →
      ({ node_id := 1, worker_id := 2, index := 3 } : QPIdx)
        = { node_id := 1, worker_id := 2, index := 3 }) ∧
    (get_ud_key { node_id := 1, worker_id := 2, index := 3 }
        = get_ud_key { node_id := 7, worker_id := 2, index := 3 }) := by
  have h := same_role_keys { node_id := 1, worker_id := 2, index := 3 }
    { node_id := 7, worker_id := 2, index := 3 }
    (by decide) (by decide) (by decide) (by decide) (by decide) (by decide)
  have h' := same_role_keys { node_id := 1, worker_id := 2, index := 3 }
    { node_id := 1, worker_id := 2, index := 3 }
    (by decide) (by decide) (by decide) (by decide) (by decide) (by decide)
  exact ⟨h'.1 (by decide) (by decide), h.2.mpr ⟨rfl, rfl⟩⟩

/-- C3 (as stated, refuted): the RC identity (node 5, worker 312, index 32) and the UD
identity (node 0, worker 5, index 0) lie in the stated ranges and get the same key. -/
theorem rc_ud_key_collision :
    ((312 : Int) * 64 + 32 < 65536 ∧ (20000 : Int) + 0 < 65536) ∧
      get_rc_key { node_id := 5, worker_id := 312, index := 32 }
        = get_ud_key { node_id := 0, worker_id := 5, index := 0 } := by
  decide

/-- C3 (amended): when the lower field of the RC key stays below `UD_ID_BASE`
(`a.worker_id * 64 + a.index < 20000`), the RC key of `a` differs from the UD key of
every `b` in the stated ranges. -/
theorem rc_ud_keys_disjoint (a b : QPIdx)
    (han : 0 ≤ a.node_id ∧ a.node_id < 65536) (haw : 0 ≤ a.worker_id ∧ a.worker_id < 65536)
    (hai : 0 ≤ a.index) (ha : a.worker_id * 64 + a.index < 20000)
    (hbw : 0 ≤ b.worker_id ∧ b.worker_id < 65536)
    (hbi : 0 ≤ b.index) (hb : 20000 + b.index < 65536) :
    get_rc_key a ≠ get_ud_key b := by
  intro h
  simp only [get_rc_key, get_ud_key, RC_ID_BASE, UD_ID_BASE] at h
  have := encode_qp_id_inj _ _ _ _ han.1 han.2 (by omega) (by omega) hbw.1 hbw.2
    (by omega) (by omega) h
  omega

theorem rc_ud_keys_disjoint_witness :
    get_rc_key { node_id := 5, worker_id := 3, index := 2 }
      ≠ get_ud_key { node_id := 0, worker_id := 5, index := 0 } :=
  rc_ud_keys_disjoint { node_id := 5, worker_id := 3, index := 2 }
    { node_id := 0, worker_id := 5, index := 0 }
    (by decide) (by decide) (by decide) (by decide) (by decide) (by decide) (by decide)

/-! ## Lemmas on the registries -/

/-- On a key that has an entry, a create call returns the cast entry and changes
nothing. -/
theorem create_rc_qp_of_find (s : RdmaCtrlImpl) (idx : QPIdx) (dev : Option RNicHandler)
    (attr : Option MemoryAttr) (p : Option QP) (h : s.qps_.find (get_rc_key idx) = some p) :
    create_rc_qp s idx dev attr = (dynamic_cast QPRole.RC p, s) := by
  simp only [create_rc_qp, h, StdMap.index_of_find _ _ _ _ h]

theorem create_ud_qp_of_find (s : RdmaCtrlImpl) (idx : QPIdx) (dev : Option RNicHandler)
    (attr : Option MemoryAttr) (p : Option QP) (h : s.qps_.find (get_ud_key idx) = some p) :
    create_ud_qp s idx dev attr = (dynamic_cast QPRole.UD p, s) := by
  simp only [create_ud_qp, h, StdMap.index_of_find _ _ _ _ h]

/-- On a free key, a create call builds one object, returns it and stores it under the
key. -/
theorem create_rc_qp_of_free (s : RdmaCtrlImpl) (idx : QPIdx) (dev : Option RNicHandler)
    (attr : Option MemoryAttr) (h : s.qps_.find (get_rc_key idx) = none) :
    create_rc_qp s idx dev attr =
      (some { addr := s.news, role := QPRole.RC, dev := dev, idx := idx, local_mr := attr },
        { s with
          qps_ := s.qps_.insert (get_rc_key idx)
            (some { addr := s.news, role := QPRole.RC, dev := dev, idx := idx,
                    local_mr := attr }),
          news := s.news + 1 }) := by
  cases attr <;> simp only [create_rc_qp, h]

theorem create_ud_qp_of_free (s : RdmaCtrlImpl) (idx : QPIdx) (dev : Option RNicHandler)
    (attr : Option MemoryAttr) (h : s.qps_.find (get_ud_key idx) = none) :
    create_ud_qp s idx dev attr =
      (some { addr := s.news, role := QPRole.UD, dev := dev, idx := idx, local_mr := attr },
        { s with
          qps_ := s.qps_.insert (get_ud_key idx)
            (some { addr := s.news, role := QPRole.UD, dev := dev, idx := idx,
                    local_mr := attr }),
          news := s.news + 1 }) := by
  cases attr <;> simp only [create_ud_qp, h]

theorem dynamic_cast_same (role : QPRole) (q : QP) (h : q.role = role) :
    dynamic_cast role (some q) = some q := by
  simp [dynamic_cast, h]

theorem dynamic_cast_other (role : QPRole) (q : QP) (h : q.role ≠ role) :
    dynamic_cast role (some q) = none := by
  simp [dynamic_cast, h]

/-- Two successive `create_rc_qp` calls on one identity. -/
theorem create_rc_qp_twice (s : RdmaCtrlImpl) (idx : QPIdx) (dev dev' : Option RNicHandler)
    (attr attr' : Option MemoryAttr) :
    (create_rc_qp (create_rc_qp s idx dev attr).2 idx dev' attr').1
        = (create_rc_qp s idx dev attr).1 ∧
      (create_rc_qp (create_rc_qp s idx dev attr).2 idx dev' attr').2
        = (create_rc_qp s idx dev attr).2 ∧
      (create_rc_qp s idx dev attr).2.news ≤ s.news + 1 := by
  cases h : s.qps_.find (get_rc_key idx) with
  | some p =>
    rw [create_rc_qp_of_find s idx dev attr p h]
    simp only [create_rc_qp_of_find s idx dev' attr' p h, Nat.le_add_right, and_self]
  | none =>
    rw [create_rc_qp_of_free s idx dev attr h]
    simp only
    rw [create_rc_qp_of_find _ idx dev' attr' _ (StdMap.find_insert_self _ _ _ h)]
    exact ⟨by simp [dynamic_cast], rfl, Nat.le_refl _⟩

/-- Two successive `create_ud_qp` calls on one identity. -/
theorem create_ud_qp_twice (s : RdmaCtrlImpl) (idx : QPIdx) (dev dev' : Option RNicHandler)
    (attr attr' : Option MemoryAttr) :
    (create_ud_qp (create_ud_qp s idx dev attr).2 idx dev' attr').1
        = (create_ud_qp s idx dev attr).1 ∧
      (create_ud_qp (create_ud_qp s idx dev attr).2 idx dev' attr').2
        = (create_ud_qp s idx dev attr).2 ∧
      (create_ud_qp s idx dev attr).2.news ≤ s.news + 1 := by
  cases h : s.qps_.find (get_ud_key idx) with
  | some p =>
    rw [create_ud_qp_of_find s idx dev attr p h]
    simp only [create_ud_qp_of_find s idx dev' attr' p h, Nat.le_add_right, and_self]
  | none =>
    rw [create_ud_qp_of_free s idx dev attr h]
    simp only
    rw [create_ud_qp_of_find _ idx dev' attr' _ (StdMap.find_insert_self _ _ _ h)]
    exact ⟨by simp [dynamic_cast], rfl, Nat.le_refl _⟩

/-- The first `create_rc_qp` call returns an RC queue pair unless the key holds something
that is not an RC queue pair. -/
theorem create_rc_qp_nonnull (s : RdmaCtrlImpl) (idx : QPIdx) (dev : Option RNicHandler)
    (attr : Option MemoryAttr)
    (h : ∀ p, s.qps_.find (get_rc_key idx) = some p → ∃ q, p = some q ∧ q.role = QPRole.RC) :
    ∃ q, (create_rc_qp s idx dev attr).1 = some q ∧ q.role = QPRole.RC := by
  cases hf : s.qps_.find (get_rc_key idx) with
  | some p =>
    obtain ⟨q, rfl, hq⟩ := h p hf
    rw [create_rc_qp_of_find s idx dev attr _ hf]
    exact ⟨q, dynamic_cast_same _ q hq, hq⟩
  | none =>
    rw [create_rc_qp_of_free s idx dev attr hf]
    exact ⟨_, rfl, rfl⟩

theorem create_ud_qp_nonnull (s : RdmaCtrlImpl) (idx : QPIdx) (dev : Option RNicHandler)
    (attr : Option MemoryAttr)
    (h : ∀ p, s.qps_.find (get_ud_key idx) = some p → ∃ q, p = some q ∧ q.role = QPRole.UD) :
    ∃ q, (create_ud_qp s idx dev attr).1 = some q ∧ q.role = QPRole.UD := by
  cases hf : s.qps_.find (get_ud_key idx) with
  | some p =>
    obtain ⟨q, rfl, hq⟩ := h p hf
    rw [create_ud_qp_of_find s idx dev attr _ hf]
    exact ⟨q, dynamic_cast_same _ q hq, hq⟩
  | none =>
    rw [create_ud_qp_of_free s idx dev attr hf]
    exact ⟨_, rfl, rfl⟩

theorem get_rc_qp_of_find (s : RdmaCtrlImpl) (idx : QPIdx) (p : Option QP)
    (h : s.qps_.find (get_rc_key idx) = some p) :
    get_rc_qp s idx = (dynamic_cast QPRole.RC p, s) := by
  simp only [get_rc_qp, h, StdMap.index_of_find _ _ _ _ h]

theorem get_ud_qp_of_find (s : RdmaCtrlImpl) (idx : QPIdx) (p : Option QP)
    (h : s.qps_.find (get_ud_key idx) = some p) :
    get_ud_qp s idx = (dynamic_cast QPRole.UD p, s) := by
  simp only [get_ud_qp, h, StdMap.index_of_find _ _ _ _ h]

theorem get_rc_qp_of_free (s : RdmaCtrlImpl) (idx : QPIdx)
    (h : s.qps_.find (get_rc_key idx) = none) : get_rc_qp s idx = (none, s) := by
  simp only [get_rc_qp, h]

theorem get_ud_qp_of_free (s : RdmaCtrlImpl) (idx : QPIdx)
    (h : s.qps_.find (get_ud_key idx) = none) : get_ud_qp s idx = (none, s) := by
  simp only [get_ud_qp, h]

theorem get_rc_qp_state (s : RdmaCtrlImpl) (idx : QPIdx) : (get_rc_qp s idx).2 = s := by
  cases h : s.qps_.find (get_rc_key idx) with
  | none => rw [get_rc_qp_of_free s idx h]
  | some p => rw [get_rc_qp_of_find s idx p h]

theorem get_ud_qp_state (s : RdmaCtrlImpl) (idx : QPIdx) : (get_ud_qp s idx).2 = s := by
  cases h : s.qps_.find (get_ud_key idx) with
  | none => rw [get_ud_qp_of_free s idx h]
  | some p => rw [get_ud_qp_of_find s idx p h]

theorem get_local_mr_of_find (e : Env) (s : RdmaCtrlImpl) (mr_id : Int) (m : Memory)
    (h : s.mrs_.find mr_id = some (some m)) : get_local_mr e s mr_id = (some m.rattr, s) := by
  simp only [get_local_mr, h, StdMap.index_of_find _ _ _ _ h]

theorem register_memory_of_find (s : RdmaCtrlImpl) (mr_id : Int) (m : Memory)
    (p : Option Memory) (h : s.mrs_.find mr_id = some p) (hv : m.valid = true) :
    register_memory s mr_id m = (true, s) := by
  simp only [register_memory, hv, h, Bool.not_true, Bool.false_eq_true, if_false]

theorem register_memory_of_free (s : RdmaCtrlImpl) (mr_id : Int) (m : Memory)
    (h : s.mrs_.find mr_id = none) (hv : m.valid = true) :
    register_memory s mr_id m = (true, { s with mrs_ := s.mrs_.insert mr_id (some m) }) := by
  simp only [register_memory, hv, h, Bool.not_true, Bool.false_eq_true, if_false]

theorem register_memory_invalid (s : RdmaCtrlImpl) (mr_id : Int) (m : Memory)
    (hv : m.valid = false) : register_memory s mr_id m = (false, s) := by
  simp only [register_memory, hv, Bool.not_false, if_true]

/-! ## Theorems on the registries -/

/-- C4 (as stated, refuted): in the state reached from the empty registry by
`create_ud_qp` for (worker 5, index 0), `create_rc_qp` for (node 5, worker 312, index 32)
finds the UD queue pair under its key and returns null. -/
theorem create_rc_qp_null_on_ud_entry :
    (create_rc_qp
        (create_ud_qp (RdmaCtrlImpl.init 0 8888) { node_id := 0, worker_id := 5, index := 0 }
          none none).2
        { node_id := 5, worker_id := 312, index := 32 } none none).1 = none := by
  decide

/-- C4 (amended): two successive calls of `create_rc_qp` (and of `create_ud_qp`) with one
identity return the same result and build at most one object, and the second call leaves
the whole state, the `qps_` map included, unchanged whatever device and memory attribute
it gets. The result is a non-null queue pair of the requested role unless the key already
holds something else; when it holds a queue pair of the other role the result is null. -/
theorem create_qp_idempotent (s : RdmaCtrlImpl) (idx : QPIdx)
    (dev dev' : Option RNicHandler) (attr attr' : Option MemoryAttr) :
    ((create_rc_qp (create_rc_qp s idx dev attr).2 idx dev' attr').1
          = (create_rc_qp s idx dev attr).1 ∧
        (create_rc_qp (create_rc_qp s idx dev attr).2 idx dev' attr').2
          = (create_rc_qp s idx dev attr).2 ∧
        (create_rc_qp (create_rc_qp s idx dev attr).2 idx dev' attr').2.news ≤ s.news + 1 ∧
        ((∀ p, s.qps_.find (get_rc_key idx) = some p → ∃ q, p = some q ∧ q.role = QPRole.RC) →
          ∃ q, (create_rc_qp s idx dev attr).1 = some q ∧ q.role = QPRole.RC) ∧
        (∀ q, s.qps_.find (get_rc_key idx) = some (some q) → q.role = QPRole.UD →
          (create_rc_qp s idx dev attr).1 = none)) ∧
      ((create_ud_qp (create_ud_qp s idx dev attr).2 idx dev' attr').1
          = (create_ud_qp s idx dev attr).1 ∧
        (create_ud_qp (create_ud_qp s idx dev attr).2 idx dev' attr').2
          = (create_ud_qp s idx dev attr).2 ∧
        (create_ud_qp (create_ud_qp s idx dev attr).2 idx dev' attr').2.news ≤ s.news + 1 ∧
        ((∀ p, s.qps_.find (get_ud_key idx) = some p → ∃ q, p = some q ∧ q.role = QPRole.UD) →
          ∃ q, (create_ud_qp s idx dev attr).1 = some q ∧ q.role = QPRole.UD) ∧
        (∀ q, s.qps_.find (get_ud_key idx) = some (some q) → q.role = QPRole.RC →
          (create_ud_qp s idx dev attr).1 = none)) := by
  obtain ⟨r1, r2, r3⟩ := create_rc_qp_twice s idx dev dev' attr attr'
  obtain ⟨u1, u2, u3⟩ := create_ud_qp_twice s idx dev dev' attr attr'
  refine ⟨⟨r1, r2, by rw [r2]; exact r3, create_rc_qp_nonnull s idx dev attr, ?_⟩,
    ⟨u1, u2, by rw [u2]; exact u3, create_ud_qp_nonnull s idx dev attr, ?_⟩⟩
  · intro q hf hq
    rw [create_rc_qp_of_find s idx dev attr _ hf]
    exact dynamic_cast_other _ q (by rw [hq]; decide)
  · intro q hf hq
    rw [create_ud_qp_of_find s idx dev attr _ hf]
    exact dynamic_cast_other _ q (by rw [hq]; decide)

theorem create_qp_idempotent_witness :
    (∃ q, (create_rc_qp (RdmaCtrlImpl.init 0 8888) { node_id := 1, worker_id := 2, index := 3 }
        none none).1 = some q ∧ q.role = QPRole.RC) ∧
      (create_rc_qp
          (create_ud_qp (RdmaCtrlImpl.init 0 8888)
            { node_id := 0, worker_id := 5, index := 0 } none none).2
          { node_id := 5, worker_id := 312, index := 32 } none none).1 = none :=
  ⟨(create_qp_idempotent (RdmaCtrlImpl.init 0 8888) { node_id := 1, worker_id := 2, index := 3 }
      none none none none).1.2.2.2.1 (by intro p hp; cases hp),
    (create_qp_idempotent
      (create_ud_qp (RdmaCtrlImpl.init 0 8888)
        { node_id := 0, worker_id := 5, index := 0 } none none).2
      { node_id := 5, worker_id := 312, index := 32 } none none none none).1.2.2.2.2
      { addr := 0, role := QPRole.UD, dev := none,
        idx := { node_id := 0, worker_id := 5, index := 0 }, local_mr := none }
      (by decide) rfl⟩

/-- C5: when `id` is registered with attributes `m0.rattr`, a further `register_memory`
with a valid registration returns true, leaves the state (the `mrs_` map included)
unchanged, and `get_local_mr` still returns `m0.rattr`; starting without `id`, a valid
first registration `m1` followed by any second one `m2` makes `get_local_mr` return
`m1.rattr`. -/
theorem register_memory_first_writer_wins (e : Env) (s : RdmaCtrlImpl) (id : Int)
    (m0 m m1 m2 : Memory) :
    (s.mrs_.find id = some (some m0) → m.valid = true →
        register_memory s id m = (true, s) ∧
          (get_local_mr e (register_memory s id m).2 id).1 = some m0.rattr) ∧
      (s.mrs_.find id = none → m1.valid = true →
        (register_memory s id m1).1 = true ∧
          (m2.valid = true → (register_memory (register_memory s id m1).2 id m2).1 = true) ∧
          (register_memory (register_memory s id m1).2 id m2).2 = (register_memory s id m1).2 ∧
          (get_local_mr e (register_memory (register_memory s id m1).2 id m2).2 id).1
            = some m1.rattr) := by
  refine ⟨?_, ?_⟩
  · intro h hv
    rw [register_memory_of_find s id m _ h hv]
    exact ⟨rfl, by rw [get_local_mr_of_find e s id m0 h]⟩
  · intro h hv
    rw [register_memory_of_free s id m1 h hv]
    have hf : ({ s with mrs_ := s.mrs_.insert id (some m1) } : RdmaCtrlImpl).mrs_.find id
        = some (some m1) := StdMap.find_insert_self _ _ _ h
    have h2 : (register_memory { s with mrs_ := s.mrs_.insert id (some m1) } id m2).2
        = { s with mrs_ := s.mrs_.insert id (some m1) } := by
      cases hv2 : m2.valid with
      | true => rw [register_memory_of_find _ id m2 _ hf hv2]
      | false => rw [register_memory_invalid _ id m2 hv2]
    refine ⟨rfl, ?_, h2, ?_⟩
    · intro hv2
      rw [register_memory_of_find _ id m2 _ hf hv2]
    · rw [h2, get_local_mr_of_find e _ id m1 hf]

theorem register_memory_first_writer_wins_witness :
    (get_local_mr Env.demo
        (register_memory
          (register_memory (RdmaCtrlImpl.init 0 8888) 7
            { valid := true, rattr := { buf := 4096, key := 42 } }).2
          7 { valid := true, rattr := { buf := 8192, key := 43 } }).2 7).1
      = some { buf := 4096, key := 42 } ∧
    register_memory
        (register_memory (RdmaCtrlImpl.init 0 8888) 7
          { valid := true, rattr := { buf := 4096, key := 42 } }).2
        7 { valid := true, rattr := { buf := 8192, key := 43 } }
      = (true, (register_memory (RdmaCtrlImpl.init 0 8888) 7
          { valid := true, rattr := { buf := 4096, key := 42 } }).2) :=
  ⟨((register_memory_first_writer_wins Env.demo (RdmaCtrlImpl.init 0 8888) 7
      { valid := true, rattr := { buf := 4096, key := 42 } }
      { valid := true, rattr := { buf := 8192, key := 43 } }
      { valid := true, rattr := { buf := 4096, key := 42 } }
      { valid := true, rattr := { buf := 8192, key := 43 } }).2 (by decide) rfl).2.2.2,
   ((register_memory_first_writer_wins Env.demo
      (register_memory (RdmaCtrlImpl.init 0 8888) 7
          { valid := true, rattr := { buf := 4096, key := 42 } }).2 7
      { valid := true, rattr := { buf := 4096, key := 42 } }
      { valid := true, rattr := { buf := 8192, key := 43 } }
      { valid := true, rattr := { buf := 4096, key := 42 } }
      { valid := true, rattr := { buf := 8192, key := 43 } }).1 (by decide) rfl).1⟩

/-- C6: `get_rc_qp` (and `get_ud_qp`) returns null when the map has no entry under the
identity's key and when the entry is a queue pair of the other role, returns the stored
queue pair when it is of the requested role, and in every case leaves the state, the
`qps_` map included, unchanged. -/
theorem typed_lookup (s : RdmaCtrlImpl) (idx : QPIdx) :
    ((get_rc_qp s idx).2 = s ∧
        (s.qps_.find (get_rc_key idx) = none → (get_rc_qp s idx).1 = none) ∧
        (∀ q, s.qps_.find (get_rc_key idx) = some (some q) → q.role = QPRole.UD →
          (get_rc_qp s idx).1 = none) ∧
        (∀ q, s.qps_.find (get_rc_key idx) = some (some q) → q.role = QPRole.RC →
          (get_rc_qp s idx).1 = some q)) ∧
      ((get_ud_qp s idx).2 = s ∧
        (s.qps_.find (get_ud_key idx) = none → (get_ud_qp s idx).1 = none) ∧
        (∀ q, s.qps_.find (get_ud_key idx) = some (some q) → q.role = QPRole.RC →
          (get_ud_qp s idx).1 = none) ∧
        (∀ q, s.qps_.find (get_ud_key idx) = some (some q) → q.role = QPRole.UD →
          (get_ud_qp s idx).1 = some q)) := by
  refine ⟨⟨get_rc_qp_state s idx, ?_, ?_, ?_⟩, ⟨get_ud_qp_state s idx, ?_, ?_, ?_⟩⟩
  · intro h
    rw [get_rc_qp_of_free s idx h]
  · intro q h hq
    rw [get_rc_qp_of_find s idx _ h]
    exact dynamic_cast_other _ q (by rw [hq]; decide)
  · intro q h hq
    rw [get_rc_qp_of_find s idx _ h]
    exact dynamic_cast_same _ q hq
  · intro h
    rw [get_ud_qp_of_free s idx h]
  · intro q h hq
    rw [get_ud_qp_of_find s idx _ h]
    exact dynamic_cast_other _ q (by rw [hq]; decide)
  · intro q h hq
    rw [get_ud_qp_of_find s idx _ h]
    exact dynamic_cast_same _ q hq

theorem typed_lookup_witness :
    (get_rc_qp (RdmaCtrlImpl.init 0 8888) { node_id := 1, worker_id := 2, index := 3 }).1 = none ∧
      (get_ud_qp
          (create_ud_qp (RdmaCtrlImpl.init 0 8888)
            { node_id := 0, worker_id := 5, index := 0 } none none).2
          { node_id := 0, worker_id := 5, index := 0 }).1
        = some { addr := 0, role := QPRole.UD, dev := none,
                 idx := { node_id := 0, worker_id := 5, index := 0 }, local_mr := none } ∧
      (get_rc_qp
          (create_ud_qp (RdmaCtrlImpl.init 0 8888)
            { node_id := 0, worker_id := 5, index := 0 } none none).2
          { node_id := 5, worker_id := 312, index := 32 }).1 = none :=
  ⟨(typed_lookup (RdmaCtrlImpl.init 0 8888) { node_id := 1, worker_id := 2, index := 3 }).1.2.1
      rfl,
    (typed_lookup
      (create_ud_qp (RdmaCtrlImpl.init 0 8888)
        { node_id := 0, worker_id := 5, index := 0 } none none).2
      { node_id := 0, worker_id := 5, index := 0 }).2.2.2.2 _ (by decide) rfl,
    (typed_lookup
      (create_ud_qp (RdmaCtrlImpl.init 0 8888)
        { node_id := 0, worker_id := 5, index := 0 } none none).2
      { node_id := 5, worker_id := 312, index := 32 }).1.2.2.1
      { addr := 0, role := QPRole.UD, dev := none,
        idx := { node_id := 0, worker_id := 5, index := 0 }, local_mr := none }
      (by decide) rfl⟩

/-! ## Lemmas on the listener -/

theorem get_rc_qp_eq_some (s : RdmaCtrlImpl) (idx : QPIdx) (q : QP) :
    (get_rc_qp s idx).1 = some q ↔
      s.qps_.find (get_rc_key idx) = some (some q) ∧ q.role = QPRole.RC := by
  cases h : s.qps_.find (get_rc_key idx) with
  | none => simp [get_rc_qp_of_free s idx h]
  | some p =>
    rw [get_rc_qp_of_find s idx p h]
    cases p with
    | none => simp [dynamic_cast]
    | some q' =>
      by_cases hr : q'.role = QPRole.RC
      · simp only [dynamic_cast, hr, if_true, Option.some.injEq]
        constructor
        · intro hq
          subst hq
          exact ⟨rfl, hr⟩
        · intro hq
          exact hq.1
      · simp only [dynamic_cast, hr, if_false, Option.some.injEq]
        constructor
        · intro hq
          cases hq
        · rintro ⟨hq, hq'⟩
          subst hq
          exact absurd hq' hr

theorem get_ud_qp_eq_some (s : RdmaCtrlImpl) (idx : QPIdx) (q : QP) :
    (get_ud_qp s idx).1 = some q ↔
      s.qps_.find (get_ud_key idx) = some (some q) ∧ q.role = QPRole.UD := by
  cases h : s.qps_.find (get_ud_key idx) with
  | none => simp [get_ud_qp_of_free s idx h]
  | some p =>
    rw [get_ud_qp_of_find s idx p h]
    cases p with
    | none => simp [dynamic_cast]
    | some q' =>
      by_cases hr : q'.role = QPRole.UD
      · simp only [dynamic_cast, hr, if_true, Option.some.injEq]
        constructor
        · intro hq
          subst hq
          exact ⟨rfl, hr⟩
        · intro hq
          exact hq.1
      · simp only [dynamic_cast, hr, if_false, Option.some.injEq]
        constructor
        · intro hq
          cases hq
        · rintro ⟨hq, hq'⟩
          subst hq
          exact absurd hq' hr

/-! ## Theorems on the listener -/

/-- C7: for a fully received request of type MR, the reply has ack SUCC and carries the
attributes registered under the requested id when the id is registered, and has ack ERR
when it is not. -/
theorem mr_request_reply (e : Env) (s : RdmaCtrlImpl) (arg : ConnArg)
    (h : arg.type = ConnArgType.MR) :
    (∀ m, s.mrs_.find (toInt32 arg.mr_id) = some (some m) →
        ∃ r, (connection_handler_reply e s arg).1 = some r ∧ r.ack = ConnStatus.SUCC ∧
          r.payload_mr = m.rattr) ∧
      (s.mrs_.find (toInt32 arg.mr_id) = none →
        ∃ r, (connection_handler_reply e s arg).1 = some r ∧ r.ack = ConnStatus.ERR) := by
  refine ⟨?_, ?_⟩
  · intro m hm
    simp only [connection_handler_reply, h, hm, StdMap.index_of_find _ _ _ _ hm]
    exact ⟨_, rfl, rfl, rfl⟩
  · intro hm
    simp only [connection_handler_reply, h, hm]
    exact ⟨_, rfl, rfl⟩

theorem mr_request_reply_witness :
    (∃ r, (connection_handler_reply Env.demo
        (register_memory (RdmaCtrlImpl.init 0 8888) 7
          { valid := true, rattr := { buf := 4096, key := 42 } }).2
        { type := ConnArgType.MR, mr_id := 7, qp_type := QPType.other 0, from_node := 0,
          from_worker := 0 }).1 = some r ∧ r.ack = ConnStatus.SUCC ∧
        r.payload_mr = { buf := 4096, key := 42 }) ∧
      (∃ r, (connection_handler_reply Env.demo
        (register_memory (RdmaCtrlImpl.init 0 8888) 7
          { valid := true, rattr := { buf := 4096, key := 42 } }).2
        { type := ConnArgType.MR, mr_id := 8, qp_type := QPType.other 0, from_node := 0,
          from_worker := 0 }).1 = some r ∧ r.ack = ConnStatus.ERR) :=
  ⟨(mr_request_reply Env.demo
      (register_memory (RdmaCtrlImpl.init 0 8888) 7
        { valid := true, rattr := { buf := 4096, key := 42 } }).2
      { type := ConnArgType.MR, mr_id := 7, qp_type := QPType.other 0, from_node := 0,
        from_worker := 0 } rfl).1 { valid := true, rattr := { buf := 4096, key := 42 } }
      (by decide),
    (mr_request_reply Env.demo
      (register_memory (RdmaCtrlImpl.init 0 8888) 7
        { valid := true, rattr := { buf := 4096, key := 42 } }).2
      { type := ConnArgType.MR, mr_id := 8, qp_type := QPType.other 0, from_node := 0,
        from_worker := 0 } rfl).2 (by decide)⟩

/-- C8: for a fully received request of type QP, the reply has ack SUCC or ERR; for
`qp_type` RC it has ack SUCC exactly when `qps_` holds an RC queue pair under the requested
identity's RC key, for `qp_type` UD exactly when `qps_` holds a UD queue pair under the
requested identity's UD key and that queue pair is ready, and for any other `qp_type` it
has ack ERR; with ack SUCC the payload is the queue pair's attributes with `node_id` set;
in every case `reply.payload.qp.node_id` is the responder's `node_id_` (as converted to
the unsigned field). -/
theorem qp_request_reply (e : Env) (s : RdmaCtrlImpl) (arg : ConnArg)
    (h : arg.type = ConnArgType.QP) :
    ∃ r, (connection_handler_reply e s arg).1 = some r ∧
      r.payload_qp.node_id = toU32 s.node_id_ ∧
      (0 ≤ s.node_id_ → s.node_id_ < 4294967296 → (r.payload_qp.node_id : Int) = s.node_id_) ∧
      (r.ack = ConnStatus.SUCC ∨ r.ack = ConnStatus.ERR) ∧
      (arg.qp_type = QPType.IBV_QPT_RC →
        (r.ack = ConnStatus.SUCC ↔
          ∃ q, s.qps_.find (get_rc_key (e.create_rc_idx arg.from_node arg.from_worker))
              = some (some q) ∧ q.role = QPRole.RC) ∧
        (∀ q, s.qps_.find (get_rc_key (e.create_rc_idx arg.from_node arg.from_worker))
              = some (some q) → q.role = QPRole.RC →
            r.payload_qp = { e.get_attr q with node_id := toU32 s.node_id_ })) ∧
      (arg.qp_type = QPType.IBV_QPT_UD →
        (r.ack = ConnStatus.SUCC ↔
          ∃ q, s.qps_.find (get_ud_key (e.create_ud_idx arg.from_node arg.from_worker))
              = some (some q) ∧ q.role = QPRole.UD ∧ e.ready q = true) ∧
        (∀ q, s.qps_.find (get_ud_key (e.create_ud_idx arg.from_node arg.from_worker))
              = some (some q) → q.role = QPRole.UD → e.ready q = true →
            r.payload_qp = { e.get_attr q with node_id := toU32 s.node_id_ })) ∧
      (∀ n, arg.qp_type = QPType.other n → r.ack = ConnStatus.ERR) := by
  have hnode : 0 ≤ s.node_id_ → s.node_id_ < 4294967296 →
      ((toU32 s.node_id_ : Nat) : Int) = s.node_id_ := by
    intro h0 h1
    rw [toU32_of_lt _ h0 h1]
    omega
  cases ht : arg.qp_type with
  | IBV_QPT_RC =>
    cases hg : (get_rc_qp s (e.create_rc_idx arg.from_node arg.from_worker)).1 with
    | none =>
      have hno : ¬ ∃ q, s.qps_.find (get_rc_key (e.create_rc_idx arg.from_node arg.from_worker))
          = some (some q) ∧ q.role = QPRole.RC := by
        rintro ⟨q, hq⟩
        rw [(get_rc_qp_eq_some s _ q).mpr hq] at hg
        cases hg
      refine ⟨_, (by simp only [connection_handler_reply, h, ht, hg]; rfl), rfl, hnode,
        Or.inr rfl, ?_, (by intro hh; cases hh), (by intro n hh; cases hh)⟩
      intro _
      refine ⟨⟨fun hh => (by cases hh), fun hh => absurd hh hno⟩, ?_⟩
      intro q hq hr
      exact absurd ⟨q, hq, hr⟩ hno
    | some q0 =>
      have hq0 := (get_rc_qp_eq_some s _ q0).mp hg
      refine ⟨_, (by simp only [connection_handler_reply, h, ht, hg]; rfl), rfl, hnode,
        Or.inl rfl, ?_, (by intro hh; cases hh), (by intro n hh; cases hh)⟩
      intro _
      refine ⟨⟨fun _ => ⟨q0, hq0⟩, fun _ => rfl⟩, ?_⟩
      intro q hq _
      rw [hq0.1] at hq
      cases hq
      rfl
  | IBV_QPT_UD =>
    cases hg : (get_ud_qp s (e.create_ud_idx arg.from_node arg.from_worker)).1 with
    | none =>
      have hno : ¬ ∃ q, s.qps_.find (get_ud_key (e.create_ud_idx arg.from_node arg.from_worker))
          = some (some q) ∧ q.role = QPRole.UD ∧ e.ready q = true := by
        rintro ⟨q, hq, hr, _⟩
        rw [(get_ud_qp_eq_some s _ q).mpr ⟨hq, hr⟩] at hg
        cases hg
      refine ⟨_, (by simp only [connection_handler_reply, h, ht, hg]; rfl), rfl, hnode,
        Or.inr rfl, (by intro hh; cases hh), ?_, (by intro n hh; cases hh)⟩
      intro _
      refine ⟨⟨fun hh => (by cases hh), fun hh => absurd hh hno⟩, ?_⟩
      intro q hq hr hy
      exact absurd ⟨q, hq, hr, hy⟩ hno
    | some q0 =>
      have hq0 := (get_ud_qp_eq_some s _ q0).mp hg
      cases hy0 : e.ready q0 with
      | false =>
        have hno : ¬ ∃ q, s.qps_.find
            (get_ud_key (e.create_ud_idx arg.from_node arg.from_worker))
            = some (some q) ∧ q.role = QPRole.UD ∧ e.ready q = true := by
          rintro ⟨q, hq, _, hy⟩
          rw [hq0.1] at hq
          cases hq
          rw [hy0] at hy
          cases hy
        refine ⟨_, (by simp only [connection_handler_reply, h, ht, hg, hy0]; rfl), rfl, hnode,
          Or.inr rfl, (by intro hh; cases hh), ?_, (by intro n hh; cases hh)⟩
        intro _
        refine ⟨⟨fun hh => (by cases hh), fun hh => absurd hh hno⟩, ?_⟩
        intro q hq hr hy
        exact absurd ⟨q, hq, hr, hy⟩ hno
      | true =>
        refine ⟨_, (by simp only [connection_handler_reply, h, ht, hg, hy0]; rfl), rfl, hnode,
          Or.inl rfl, (by intro hh; cases hh), ?_, (by intro n hh; cases hh)⟩
        intro _
        refine ⟨⟨fun _ => ⟨q0, hq0.1, hq0.2, hy0⟩, fun _ => rfl⟩, ?_⟩
        intro q hq _ _
        rw [hq0.1] at hq
        cases hq
        rfl
  | other n =>
    refine ⟨_, (by simp only [connection_handler_reply, h, ht]; rfl), rfl, hnode,
      Or.inr rfl, (by intro hh; cases hh), (by intro hh; cases hh), fun _ _ => rfl⟩

theorem qp_request_reply_witness :
    ∃ r, (connection_handler_reply Env.demo
        (create_ud_qp (RdmaCtrlImpl.init 3 8888) { node_id := 0, worker_id := 2, index := 0 }
          none (some { buf := 4096, key := 42 })).2
        { type := ConnArgType.QP, mr_id := 0, qp_type := QPType.IBV_QPT_UD, from_node := 2,
          from_worker := 0 }).1 = some r ∧
      r.ack = ConnStatus.SUCC ∧ r.payload_qp.node_id = 3 := by
  obtain ⟨r, h1, h2, _, _, _, hud, _⟩ := qp_request_reply Env.demo
    (create_ud_qp (RdmaCtrlImpl.init 3 8888) { node_id := 0, worker_id := 2, index := 0 }
      none (some { buf := 4096, key := 42 })).2
    { type := ConnArgType.QP, mr_id := 0, qp_type := QPType.IBV_QPT_UD, from_node := 2,
      from_worker := 0 } rfl
  exact ⟨r, h1, (hud rfl).1.mpr
    ⟨{ addr := 0, role := QPRole.UD, dev := none,
       idx := { node_id := 0, worker_id := 2, index := 0 },
       local_mr := some { buf := 4096, key := 42 } }, by decide, rfl, rfl⟩,
    h2.trans (by decide)⟩

/-! ## Theorems on the handshake client -/

/-- C9 (as stated, refuted): when the socket calls all succeed and the fully read reply
has ack ERR, `get_remote_helper` returns NOT_READY, not ERR. -/
theorem get_remote_helper_ack_err :
    (get_remote_helper Env.demo
        (fun _ _ _ =>
          { socket := 3, send_n := 16, wait_recv := true, recv_n := 40,
            received := { Env.demo.uninit_reply with ack := ConnStatus.ERR } })
        { Env.demo.uninit_arg with type := ConnArgType.MR, mr_id := 8 }
        Env.demo.uninit_reply "10.0.0.1" 8888).1 = ConnStatus.NOT_READY := by
  decide

/-- C9 (amended): `get_remote_helper` returns ERR when the connection is refused, the
request is written short or the reply is read short, TIMEOUT when `wait_recv` reports no
reply, NOT_READY when a full reply with ack other than SUCC is read, and SUCC exactly when
a full reply with ack SUCC is read; `get_remote_mr` returns the same status, copies the
reply's key and buf into the caller's attr when the status is SUCC and leaves attr as it
was otherwise. -/
theorem handshake_status (e : Env) (net : String → Int → ConnArg → Exchange) (arg : ConnArg)
    (reply : ConnReply) (ip : String) (port : Int) (mr_id : Int) (attr : MemoryAttr) :
    ((net ip port arg).socket < 0 →
        (get_remote_helper e net arg reply ip port).1 = ConnStatus.ERR) ∧
      (0 ≤ (net ip port arg).socket → (net ip port arg).send_n ≠ (e.sizeof_ConnArg : Int) →
        (get_remote_helper e net arg reply ip port).1 = ConnStatus.ERR) ∧
      (0 ≤ (net ip port arg).socket → (net ip port arg).send_n = (e.sizeof_ConnArg : Int) →
        (net ip port arg).wait_recv = false →
        (get_remote_helper e net arg reply ip port).1 = ConnStatus.TIMEOUT) ∧
      (0 ≤ (net ip port arg).socket → (net ip port arg).send_n = (e.sizeof_ConnArg : Int) →
        (net ip port arg).wait_recv = true →
        (net ip port arg).recv_n ≠ (e.sizeof_ConnReply : Int) →
        (get_remote_helper e net arg reply ip port).1 = ConnStatus.ERR) ∧
      (0 ≤ (net ip port arg).socket → (net ip port arg).send_n = (e.sizeof_ConnArg : Int) →
        (net ip port arg).wait_recv = true →
        (net ip port arg).recv_n = (e.sizeof_ConnReply : Int) →
        (net ip port arg).received.ack ≠ ConnStatus.SUCC →
        (get_remote_helper e net arg reply ip port).1 = ConnStatus.NOT_READY) ∧
      ((get_remote_helper e net arg reply ip port).1 = ConnStatus.SUCC ↔
        (0 ≤ (net ip port arg).socket ∧ (net ip port arg).send_n = (e.sizeof_ConnArg : Int) ∧
          (net ip port arg).wait_recv = true ∧
          (net ip port arg).recv_n = (e.sizeof_ConnReply : Int) ∧
          (net ip port arg).received.ack = ConnStatus.SUCC)) ∧
      ((get_remote_helper e net arg reply ip port).1 = ConnStatus.SUCC →
        (get_remote_helper e net arg reply ip port).2 = (net ip port arg).received) ∧
      ((get_remote_mr e net ip port mr_id attr).1
          = (get_remote_helper e net
              { e.uninit_arg with type := ConnArgType.MR, mr_id := toU32 mr_id }
              e.uninit_reply ip port).1) ∧
      ((get_remote_mr e net ip port mr_id attr).1 = ConnStatus.SUCC →
        (get_remote_mr e net ip port mr_id attr).2
          = (net ip port
              { e.uninit_arg with type := ConnArgType.MR, mr_id := toU32 mr_id }).received.payload_mr) ∧
      ((get_remote_mr e net ip port mr_id attr).1 ≠ ConnStatus.SUCC →
        (get_remote_mr e net ip port mr_id attr).2 = attr) := by
  refine ⟨?_, ?_, ?_, ?_, ?_, ?_, ?_, ?_, ?_, ?_⟩
  · intro h
    simp only [get_remote_helper, h, if_true]
  · intro h1 h2
    simp only [get_remote_helper, not_lt.mpr h1, h2, if_false, ne_eq, not_false_eq_true, if_true]
  · intro h1 h2 h3
    simp [get_remote_helper, not_lt.mpr h1, h2, h3]
  · intro h1 h2 h3 h4
    simp [get_remote_helper, not_lt.mpr h1, h2, h3, h4]
  · intro h1 h2 h3 h4 h5
    simp [get_remote_helper, not_lt.mpr h1, h2, h3, h4, h5]
  · unfold get_remote_helper
    simp only
    split_ifs <;> simp_all
  · unfold get_remote_helper
    simp only
    split_ifs <;> simp_all
  · unfold get_remote_mr
    simp only
    split_ifs <;> rfl
  · intro h
    have hs : (get_remote_helper e net
        { e.uninit_arg with type := ConnArgType.MR, mr_id := toU32 mr_id }
        e.uninit_reply ip port).1 = ConnStatus.SUCC := by
      unfold get_remote_mr at h
      simp only at h
      split_ifs at h with h1
      · exact h1
      · exact absurd h h1
    have hr : (get_remote_helper e net
        { e.uninit_arg with type := ConnArgType.MR, mr_id := toU32 mr_id }
        e.uninit_reply ip port).2
          = (net ip port
              { e.uninit_arg with type := ConnArgType.MR, mr_id := toU32 mr_id }).received := by
      unfold get_remote_helper at hs ⊢
      simp only at hs ⊢
      split_ifs at hs ⊢
      rfl
    unfold get_remote_mr
    simp only [hs, if_true, hr]
  · intro h
    unfold get_remote_mr at h ⊢
    simp only at h ⊢
    split_ifs with h1
    · simp only [h1, if_true] at h
      exact absurd rfl h
    · rfl

theorem handshake_status_witness :
    (get_remote_helper Env.demo
        (fun _ _ _ =>
          { socket := -1, send_n := 0, wait_recv := false, recv_n := 0,
            received := Env.demo.uninit_reply })
        Env.demo.uninit_arg Env.demo.uninit_reply "10.0.0.1" 8888).1 = ConnStatus.ERR ∧
      (get_remote_helper Env.demo
        (fun _ _ _ =>
          { socket := 3, send_n := 16, wait_recv := false, recv_n := 0,
            received := Env.demo.uninit_reply })
        Env.demo.uninit_arg Env.demo.uninit_reply "10.0.0.1" 8888).1 = ConnStatus.TIMEOUT ∧
      (get_remote_mr Env.demo
        (fun _ _ _ =>
          { socket := 3, send_n := 16, wait_recv := true, recv_n := 40,
            received := { ack := ConnStatus.SUCC, payload_mr := { buf := 4096, key := 42 },
                          payload_qp := Env.demo.uninit_reply.payload_qp } })
        "10.0.0.1" 8888 7 { buf := 0, key := 0 }).2 = { buf := 4096, key := 42 } :=
  ⟨(handshake_status Env.demo
      (fun _ _ _ =>
        { socket := -1, send_n := 0, wait_recv := false, recv_n := 0,
          received := Env.demo.uninit_reply })
      Env.demo.uninit_arg Env.demo.uninit_reply "10.0.0.1" 8888 7 { buf := 0, key := 0 }).1
      (by decide),
    (handshake_status Env.demo
      (fun _ _ _ =>
        { socket := 3, send_n := 16, wait_recv := false, recv_n := 0,
          received := Env.demo.uninit_reply })
      Env.demo.uninit_arg Env.demo.uninit_reply "10.0.0.1" 8888 7 { buf := 0, key := 0 }).2.2.1
      (by decide) (by decide) rfl,
    (handshake_status Env.demo
      (fun _ _ _ =>
        { socket := 3, send_n := 16, wait_recv := true, recv_n := 40,
          received := { ack := ConnStatus.SUCC, payload_mr := { buf := 4096, key := 42 },
                        payload_qp := Env.demo.uninit_reply.payload_qp } })
      Env.demo.uninit_arg Env.demo.uninit_reply "10.0.0.1" 8888 7
      { buf := 0, key := 0 }).2.2.2.2.2.2.2.2.1 (by decide)⟩

/-! ## Theorems on cluster linking -/

/-- C10 (the code at the failing input): with peers 10.0.0.1 and 10.0.0.2, when the first
connect call (to 10.0.0.1, on the queue pair of node 0) fails and the later ones succeed,
`link_symmetric_rcqps` returns true with both peers marked ready after three connect
calls: the failed one, a successful one to 10.0.0.2 on the queue pair of node 0 bound to
the attributes fetched from 10.0.0.1, and a successful one to 10.0.0.2 on the queue pair
of node 1. No connect call to 10.0.0.1 returned SUCC. -/
theorem link_symmetric_rcqps_wrong_peer :
    (link_symmetric_rcqps Env.demo World.demo none (RdmaCtrlImpl.init 0 8888)
        ["10.0.0.1", "10.0.0.2"] 0 1 0 0 3).map
      (fun r => (r.1, r.2.ready_list,
        r.2.trace.map (fun ev => (ev.peer, ev.slot, ev.qp.idx.node_id, ev.bound_mr, ev.rc))))
      = some (true, [true, true],
          [("10.0.0.1", 0, 0, { buf := 4096, key := 1 }, ConnStatus.ERR),
           ("10.0.0.2", 0, 0, { buf := 4096, key := 1 }, ConnStatus.SUCC),
           ("10.0.0.2", 1, 1, { buf := 8192, key := 2 }, ConnStatus.SUCC)]) := by
  rfl

/-! ## Theorems on completion polling -/

/-- While every poll reports no completion and the clock difference stays within the
limit, the loop goes on; it leaves at the first reading past the limit, with
`poll_result = 0`. -/
theorem poll_loop_timeout (diff_time : Timeval → Timeval → Int) (w : PollWorld)
    (timeout : Timeval) (k : Nat) :
    ∀ (n fuel : Nat), k < fuel →
      (∀ j, j ≤ k → w.poll (n + j) = 0) →
      (∀ j, j < k → diff_time (w.now (n + j + 1)) (w.now 0) ≤ poll_limit timeout) →
      poll_limit timeout < diff_time (w.now (n + k + 1)) (w.now 0) →
      poll_loop diff_time w timeout fuel n = some (0, n + k) := by
  induction k with
  | zero =>
    intro n fuel hf hp _ hx
    obtain ⟨f, rfl⟩ : ∃ f, fuel = f + 1 := ⟨fuel - 1, by omega⟩
    have h0 : w.poll n = 0 := by simpa using hp 0 (Nat.le_refl 0)
    simp only [poll_loop, h0, true_and, Nat.add_zero]
    rw [if_neg (by simpa using hx)]
  | succ k ih =>
    intro n fuel hf hp hd hx
    obtain ⟨f, rfl⟩ : ∃ f, fuel = f + 1 := ⟨fuel - 1, by omega⟩
    have h0 : w.poll n = 0 := by simpa using hp 0 (Nat.zero_le _)
    have hd0 := hd 0 (Nat.succ_pos k)
    simp only [Nat.add_zero] at hd0
    simp only [poll_loop, h0, true_and]
    rw [if_pos hd0]
    have := ih (n + 1) f (by omega)
      (fun j hj => by have := hp (j + 1) (by omega); rwa [show n + 1 + j = n + (j + 1) by omega])
      (fun j hj => by
        have := hd (j + 1) (by omega)
        rwa [show n + 1 + j + 1 = n + (j + 1) + 1 by omega])
      (by rwa [show n + 1 + k + 1 = n + (k + 1) + 1 by omega])
    rw [this]
    congr 2
    omega

/-- A zero-length timeout has limit 0. -/
theorem poll_limit_zero : poll_limit { tv_sec := 0, tv_usec := 0 } = 0 := by
  decide

/-- The limit wraps in 64 bits: with `tv_sec = 9223372036854776` it is negative, and the
run leaves the loop after the first poll. -/
theorem poll_limit_wraps :
    poll_limit { tv_sec := 9223372036854776, tv_usec := 0 } = -9223372036854775616 ∧
      poll_till_completion diff_time_ms PollWorld.idle
          { tv_sec := 9223372036854776, tv_usec := 0 } 5
        = some { failed_assert := true, ret := ConnStatus.TIMEOUT, polls := 1 } := by
  exact ⟨by decide, rfl⟩

/-- C11 (as stated, refuted): with a zero-length timeout, no completion and a clock that
advances one millisecond per reading, `poll_till_completion` stops after the first poll,
at the first reading past the start time, on the exit
`RDMA_ASSERT(false); return TIMEOUT;`: an assertion with a false condition is evaluated,
so the run does fail an assertion. -/
theorem poll_till_completion_asserts_on_timeout :
    poll_till_completion diff_time_ms PollWorld.idle { tv_sec := 0, tv_usec := 0 } 5
      = some { failed_assert := true, ret := ConnStatus.TIMEOUT, polls := 1 } := by
  rfl

/-- C11 (amended): for every timeout value and every clock sequence, when every poll up to
the `k`-th reports no completion and reading `k + 1` is the first whose difference to the
start time exceeds the limit `timeout.tv_sec * 1000 + timeout.tv_usec` (in 64-bit
arithmetic), the run terminates, given more than `k` iterations, after exactly `k + 1`
polls on the exit `RDMA_ASSERT(false); return TIMEOUT;`: it evaluates an assertion with a
false condition and the status of its return statement is TIMEOUT, not ERR or SUCC. With
a zero-length timeout the limit is 0, so the run stops at the first reading past the
start time. -/
theorem poll_till_completion_timeout (diff_time : Timeval → Timeval → Int) (w : PollWorld)
    (timeout : Timeval) (k fuel : Nat) (hf : k < fuel)
    (hp : ∀ j, j ≤ k → w.poll j = 0)
    (hd : ∀ j, j < k → diff_time (w.now (j + 1)) (w.now 0) ≤ poll_limit timeout)
    (hx : poll_limit timeout < diff_time (w.now (k + 1)) (w.now 0)) :
    poll_till_completion diff_time w timeout fuel
      = some { failed_assert := true, ret := ConnStatus.TIMEOUT, polls := k + 1 } := by
  have h := poll_loop_timeout diff_time w timeout k 0 fuel hf
    (fun j hj => by simpa using hp j hj)
    (fun j hj => by simpa using hd j hj)
    (by simpa using hx)
  simp only [poll_till_completion, h, Nat.zero_add, if_true]

theorem poll_till_completion_timeout_witness :
    poll_till_completion diff_time_ms PollWorld.idle { tv_sec := 0, tv_usec := 0 } 1
        = some { failed_assert := true, ret := ConnStatus.TIMEOUT, polls := 1 } ∧
      poll_till_completion diff_time_ms PollWorld.idle { tv_sec := 0, tv_usec := 2 } 3
        = some { failed_assert := true, ret := ConnStatus.TIMEOUT, polls := 3 } :=
  ⟨poll_till_completion_timeout diff_time_ms PollWorld.idle { tv_sec := 0, tv_usec := 0 } 0 1
      (by decide) (fun _ _ => rfl) (fun j hj => absurd hj (Nat.not_lt_zero j)) (by decide),
    poll_till_completion_timeout diff_time_ms PollWorld.idle { tv_sec := 0, tv_usec := 2 } 2 3
      (by decide) (fun _ _ => rfl)
      (fun j hj => by
        have h : j = 0 ∨ j = 1 := by omega
        rcases h with h | h <;> subst h <;> decide)
      (by decide)⟩

/-! ## Lemmas on the port index conversion -/

theorem wrap_int_of_range (i : Int) (h0 : -2147483648 ≤ i) (h1 : i < 2147483648) :
    wrap_int i = i := by
  unfold wrap_int
  omega

theorem wrap_int_range (i : Int) : -2147483648 ≤ wrap_int i ∧ wrap_int i < 2147483648 := by
  unfold wrap_int
  omega

/-- An index below the number of ports left is found at this device. -/
theorem port_loop_hit (dev_id : Int) :
    ∀ (k : Nat) (port_id idx : Int), 0 ≤ idx → idx < (k : Int) → idx < 2147483648 →
      port_loop dev_id k port_id idx = Sum.inl { dev_id := dev_id, port_id := port_id + idx } := by
  intro k
  induction k with
  | zero =>
    intro port_id idx h0 h1 _
    omega
  | succ k ih =>
    intro port_id idx h0 h1 h2
    unfold port_loop
    by_cases hz : idx = 0
    · simp [hz]
    · rw [if_neg hz, wrap_int_of_range (idx - 1) (by omega) (by omega),
        ih (port_id + 1) (idx - 1) (by omega) (by omega) (by omega)]
      congr 2
      omega

/-- An index at or beyond the number of ports left passes the device, reduced by that
number. -/
theorem port_loop_pass (dev_id : Int) :
    ∀ (k : Nat) (port_id idx : Int), (k : Int) ≤ idx → idx < 2147483648 →
      port_loop dev_id k port_id idx = Sum.inr (idx - (k : Int)) := by
  intro k
  induction k with
  | zero =>
    intro port_id idx _ _
    simp [port_loop]
  | succ k ih =>
    intro port_id idx h1 h2
    unfold port_loop
    rw [if_neg (by omega), wrap_int_of_range (idx - 1) (by omega) (by omega),
      ih (port_id + 1) (idx - 1) (by omega) (by omega)]
    congr 1
    omega

/-- An index that is negative or at least `T` passes the device and stays negative or at
least the rest of `T`. -/
theorem port_loop_miss (dev_id : Int) :
    ∀ (k : Nat) (port_id idx T : Int), (k : Int) ≤ T → T ≤ 2147483648 →
      -2147483648 ≤ idx → idx < 2147483648 → (idx < 0 ∨ T ≤ idx) →
      ∃ idx1, port_loop dev_id k port_id idx = Sum.inr idx1 ∧
        -2147483648 ≤ idx1 ∧ idx1 < 2147483648 ∧ (idx1 < 0 ∨ T - (k : Int) ≤ idx1) := by
  intro k
  induction k with
  | zero =>
    intro port_id idx T _ _ h0 h1 h
    exact ⟨idx, rfl, h0, h1, by simpa using h⟩
  | succ k ih =>
    intro port_id idx T hk hT h0 h1 h
    unfold port_loop
    rw [if_neg (by omega)]
    have hr := wrap_int_range (idx - 1)
    have hm : wrap_int (idx - 1) < 0 ∨ T - 1 ≤ wrap_int (idx - 1) := by
      unfold wrap_int
      omega
    obtain ⟨idx1, e1, a1, b1, c1⟩ :=
      ih (port_id + 1) (wrap_int (idx - 1)) (T - 1) (by omega) (by omega) hr.1 hr.2 hm
    exact ⟨idx1, e1, a1, b1, by omega⟩

theorem port_counts_cons (info : RNicInfo) (rest : List RNicInfo) :
    port_counts (info :: rest) = info.active_ports.length :: port_counts rest := rfl

theorem total_ports_cons (info : RNicInfo) (rest : List RNicInfo) :
    total_ports (info :: rest) = info.active_ports.length + total_ports rest := by
  simp [total_ports, port_counts]

/-- An index below the total is found: at a device `d`, at a port within the device's
count, with the ports of the devices before `d` and the ports before it adding up to the
index. -/
theorem dev_loop_hit :
    ∀ (infos : List RNicInfo) (dev_id idx : Int), 0 ≤ idx → idx < (total_ports infos : Int) →
      idx < 2147483648 →
      ∃ d : Nat, d < infos.length ∧ (dev_loop infos dev_id idx).dev_id = dev_id + (d : Int) ∧
        1 ≤ (dev_loop infos dev_id idx).port_id ∧
        (dev_loop infos dev_id idx).port_id ≤ ((port_counts infos).getD d 0 : Nat) ∧
        (((port_counts infos).take d).sum : Int) + ((dev_loop infos dev_id idx).port_id - 1)
          = idx := by
  intro infos
  induction infos with
  | nil =>
    intro dev_id idx h0 h1 _
    simp [total_ports, port_counts] at h1
    omega
  | cons info rest ih =>
    intro dev_id idx h0 h1 h2
    rw [total_ports_cons, Nat.cast_add] at h1
    by_cases hlt : idx < (info.active_ports.length : Int)
    · have hd : dev_loop (info :: rest) dev_id idx = { dev_id := dev_id, port_id := 1 + idx } := by
        simp only [dev_loop, port_loop_hit dev_id info.active_ports.length 1 idx h0 hlt h2]
      rw [hd, port_counts_cons]
      refine ⟨0, by simp, by simp, by simp only; omega, ?_, ?_⟩
      · simp only [List.getD_cons_zero]
        omega
      · simp only [List.take_zero, List.sum_nil, Nat.cast_zero]
        omega
    · have hd : dev_loop (info :: rest) dev_id idx
          = dev_loop rest (dev_id + 1) (idx - (info.active_ports.length : Int)) := by
        simp only [dev_loop,
          port_loop_pass dev_id info.active_ports.length 1 idx (by omega) h2]
      obtain ⟨d, hdl, e1, e2, e3, e4⟩ :=
        ih (dev_id + 1) (idx - (info.active_ports.length : Int)) (by omega) (by omega)
          (by omega)
      rw [hd, port_counts_cons]
      refine ⟨d + 1, by simpa using hdl, ?_, e2, ?_, ?_⟩
      · rw [e1]
        push_cast
        omega
      · rw [List.getD_cons_succ]
        exact e3
      · rw [List.take_succ_cons, List.sum_cons, Nat.cast_add]
        omega

theorem dev_loop_miss :
    ∀ (infos : List RNicInfo) (dev_id idx : Int), (total_ports infos : Int) ≤ 2147483648 →
      -2147483648 ≤ idx → idx < 2147483648 → (idx < 0 ∨ (total_ports infos : Int) ≤ idx) →
      dev_loop infos dev_id idx = { dev_id := -1, port_id := -1 } := by
  intro infos
  induction infos with
  | nil =>
    intro dev_id idx _ _ _ _
    rfl
  | cons info rest ih =>
    intro dev_id idx hT h0 h1 h
    rw [total_ports_cons] at hT h
    push_cast at hT h
    obtain ⟨idx1, e1, a1, b1, c1⟩ :=
      port_loop_miss dev_id info.active_ports.length 1 idx
        ((info.active_ports.length : Int) + (total_ports rest : Int)) (by omega) hT h0 h1 h
    simp only [dev_loop, e1]
    exact ih (dev_id + 1) idx1 (by omega) a1 b1 (by omega)

/-! ## Theorems on the port index conversion -/

/-- C13: for a non-empty cached device list whose total number of active ports `T` fits
an `int`, and an `int` index `idx`: when `0 ≤ idx < T` the result of `convert_port_idx`
names a device `d` of the list and a port between 1 and the device's port count, with
(ports of the devices before `d`) + (port_id - 1) = `idx`; two indices in range with the
same result are equal; when `idx < 0` or `idx ≥ T` the result is (-1, -1). -/
theorem convert_port_idx_spec (infos queried : List RNicInfo) (hne : infos ≠ [])
    (hT : total_ports infos < 2147483648) (idx : Int)
    (hlo : -2147483648 ≤ idx) (hhi : idx < 2147483648) :
    (0 ≤ idx → idx < (total_ports infos : Int) →
      ∃ d : Nat, d < infos.length ∧
        (convert_port_idx infos queried idx).dev_id = (d : Int) ∧
        1 ≤ (convert_port_idx infos queried idx).port_id ∧
        (convert_port_idx infos queried idx).port_id ≤ ((port_counts infos).getD d 0 : Nat) ∧
        (((port_counts infos).take d).sum : Int)
          + ((convert_port_idx infos queried idx).port_id - 1) = idx) ∧
      (∀ idx' : Int, 0 ≤ idx → idx < (total_ports infos : Int) →
        0 ≤ idx' → idx' < (total_ports infos : Int) →
        convert_port_idx infos queried idx = convert_port_idx infos queried idx' →
        idx = idx') ∧
      ((idx < 0 ∨ (total_ports infos : Int) ≤ idx) →
        convert_port_idx infos queried idx = { dev_id := -1, port_id := -1 }) := by
  have hlen : ¬ infos.length = 0 := by
    intro h
    exact hne (List.length_eq_zero.mp h)
  have hc : ∀ i : Int, convert_port_idx infos queried i = dev_loop infos 0 i := by
    intro i
    simp only [convert_port_idx, hlen, if_false]
  have hhit : ∀ i : Int, 0 ≤ i → i < (total_ports infos : Int) →
      ∃ d : Nat, d < infos.length ∧ (dev_loop infos 0 i).dev_id = (d : Int) ∧
        1 ≤ (dev_loop infos 0 i).port_id ∧
        (dev_loop infos 0 i).port_id ≤ ((port_counts infos).getD d 0 : Nat) ∧
        (((port_counts infos).take d).sum : Int) + ((dev_loop infos 0 i).port_id - 1) = i := by
    intro i h0 h1
    obtain ⟨d, a, b, c⟩ := dev_loop_hit infos 0 i h0 h1 (by omega)
    exact ⟨d, a, by rw [b]; omega, c⟩
  refine ⟨?_, ?_, ?_⟩
  · intro h0 h1
    rw [hc]
    exact hhit idx h0 h1
  · intro idx' h0 h1 h0' h1' heq
    rw [hc, hc] at heq
    obtain ⟨d, _, b, _, _, e⟩ := hhit idx h0 h1
    obtain ⟨d', _, b', _, _, e'⟩ := hhit idx' h0' h1'
    rw [heq] at b e
    have hdd : d = d' := by omega
    subst hdd
    omega
  · intro h
    rw [hc]
    exact dev_loop_miss infos 0 idx (by omega) hlo hhi h

theorem convert_port_idx_spec_witness :
    (∃ d : Nat, d < 3 ∧
        (convert_port_idx [{ active_ports := [1, 2] }, { active_ports := [] },
            { active_ports := [1] }] [] 2).dev_id = (d : Int) ∧
        1 ≤ (convert_port_idx [{ active_ports := [1, 2] }, { active_ports := [] },
            { active_ports := [1] }] [] 2).port_id ∧
        (convert_port_idx [{ active_ports := [1, 2] }, { active_ports := [] },
            { active_ports := [1] }] [] 2).port_id ≤ (([2, 0, 1] : List Nat).getD d 0 : Nat) ∧
        (((([2, 0, 1] : List Nat).take d).sum : Nat) : Int)
          + ((convert_port_idx [{ active_ports := [1, 2] }, { active_ports := [] },
            { active_ports := [1] }] [] 2).port_id - 1) = 2) ∧
      convert_port_idx [{ active_ports := [1, 2] }, { active_ports := [] },
          { active_ports := [1] }] [] 3 = { dev_id := -1, port_id := -1 } ∧
      convert_port_idx [{ active_ports := [1, 2] }, { active_ports := [] },
          { active_ports := [1] }] [] (-1) = { dev_id := -1, port_id := -1 } :=
  ⟨(convert_port_idx_spec [{ active_ports := [1, 2] }, { active_ports := [] },
        { active_ports := [1] }] [] (by decide) (by decide) 2 (by decide) (by decide)).1
      (by decide) (by decide),
    (convert_port_idx_spec [{ active_ports := [1, 2] }, { active_ports := [] },
        { active_ports := [1] }] [] (by decide) (by decide) 3 (by decide) (by decide)).2.2
      (Or.inr (by decide)),
    (convert_port_idx_spec [{ active_ports := [1, 2] }, { active_ports := [] },
        { active_ports := [1] }] [] (by decide) (by decide) (-1) (by decide) (by decide)).2.2
      (Or.inl (by decide))⟩

/-! ## Theorems on the lock discipline of the listener -/

/-- The discipline rejects a trace that acquires `lock_` twice in a row. -/
theorem disciplined_rejects_nested_lock :
    disciplined false [Event.lock, Event.lock, Event.unlock, Event.unlock] = false := by
  decide

/-- The discipline rejects a trace that sends while `lock_` is held. -/
theorem disciplined_rejects_send_under_lock :
    disciplined false [Event.lock, Event.send_to, Event.unlock] = false := by
  decide

theorem get_rc_qp_events_eq (s : RdmaCtrlImpl) (idx : QPIdx) :
    get_rc_qp_events s idx = [Event.lock, Event.unlock] := by
  unfold get_rc_qp_events
  split <;> rfl

theorem get_ud_qp_events_eq (s : RdmaCtrlImpl) (idx : QPIdx) :
    get_ud_qp_events s idx = [Event.lock, Event.unlock] := by
  unfold get_ud_qp_events
  split <;> rfl

/-- The calls inside the switch start and end with `lock_` held and keep the
discipline; `tail` is what follows the switch. -/
theorem dispatch_events_disciplined (e : Env) (s : RdmaCtrlImpl) (arg : ConnArg)
    (tail : List Event) :
    disciplined true (dispatch_events e s arg ++ tail) = disciplined true tail ∧
      held_after true (dispatch_events e s arg ++ tail) = held_after true tail := by
  unfold dispatch_events
  cases arg.type with
  | MR => exact ⟨rfl, rfl⟩
  | other n => exact ⟨rfl, rfl⟩
  | QP =>
    cases arg.qp_type with
    | IBV_QPT_RC =>
      simp only [get_rc_qp_events_eq]
      exact ⟨by simp [disciplined], by simp [held_after]⟩
    | IBV_QPT_UD =>
      simp only [get_ud_qp_events_eq]
      exact ⟨by simp [disciplined], by simp [held_after]⟩
    | other n => exact ⟨rfl, rfl⟩

/-- C12: the trace of one `connection_handler` iteration keeps the lock discipline for
every request and every registry state: `lock_` is never acquired while held (the nested
`get_rc_qp` and `get_ud_qp` run between an unlock and a lock), no blocking socket call
(`accept`, `wait_recv`, `recv`, `send_to`, `wait_close`) is made while it is held, and
whenever a reply is sent the trace ends with `unlock, send_to, wait_close` and `lock_`
free. -/
theorem connection_handler_lock_discipline (e : Env) (s : RdmaCtrlImpl) (c : Accepted) :
    disciplined false (connection_handler_iter e s c).1 = true ∧
      (∀ reply, (connection_handler_iter e s c).2.1 = some reply →
        held_after false (connection_handler_iter e s c).1 = false ∧
        ∃ before, (connection_handler_iter e s c).1
            = before ++ [Event.unlock, Event.send_to, Event.wait_close] ∧
          held_after false before = true) := by
  have hpre : ∀ t : List Event,
      disciplined false ([Event.accept, Event.wait_recv, Event.recv, Event.lock] ++ t)
          = disciplined true t ∧
        held_after false ([Event.accept, Event.wait_recv, Event.recv, Event.lock] ++ t)
          = held_after true t := by
    intro t
    exact ⟨by simp [disciplined, Event.blocking], by simp [held_after]⟩
  unfold connection_handler_iter
  by_cases h1 : c.csfd < 0
  · rw [if_pos h1]
    exact ⟨rfl, by intro reply h; cases h⟩
  · rw [if_neg h1]
    cases hw : c.wait_recv with
    | false =>
      simp only [Bool.not_false, if_true]
      exact ⟨rfl, by intro reply h; cases h⟩
    | true =>
      simp only [Bool.not_true, Bool.false_eq_true, if_false]
      by_cases h3 : c.recv_n ≠ (e.sizeof_ConnArg : Int)
      · rw [if_pos h3]
        exact ⟨rfl, by intro reply h; cases h⟩
      · rw [if_neg h3]
        cases hr : (connection_handler_reply e s c.arg).1 with
        | none =>
          simp only
          refine ⟨?_, by intro reply h; cases h⟩
          have hd := (dispatch_events_disciplined e s c.arg []).1
          rw [List.append_nil] at hd
          rw [(hpre _).1, hd]
          rfl
        | some reply =>
          simp only
          refine ⟨?_, ?_⟩
          · rw [List.append_assoc, (hpre _).1, (dispatch_events_disciplined e s c.arg _).1]
            decide
          · intro reply' _
            refine ⟨?_, _, rfl, ?_⟩
            · rw [List.append_assoc, (hpre _).2, (dispatch_events_disciplined e s c.arg _).2]
              decide
            · have hd := (dispatch_events_disciplined e s c.arg []).2
              rw [List.append_nil] at hd
              rw [(hpre _).2, hd]
              rfl

theorem connection_handler_lock_discipline_witness :
    disciplined false
        (connection_handler_iter Env.demo
          (create_ud_qp (RdmaCtrlImpl.init 3 8888) { node_id := 0, worker_id := 2, index := 0 }
            none (some { buf := 4096, key := 42 })).2
          { csfd := 5, wait_recv := true, recv_n := 16,
            arg := { type := ConnArgType.QP, mr_id := 0, qp_type := QPType.IBV_QPT_UD,
                     from_node := 2, from_worker := 0 } }).1 = true ∧
      held_after false
        (connection_handler_iter Env.demo
          (create_ud_qp (RdmaCtrlImpl.init 3 8888) { node_id := 0, worker_id := 2, index := 0 }
            none (some { buf := 4096, key := 42 })).2
          { csfd := 5, wait_recv := true, recv_n := 16,
            arg := { type := ConnArgType.QP, mr_id := 0, qp_type := QPType.IBV_QPT_UD,
                     from_node := 2, from_worker := 0 } }).1 = false ∧
      (connection_handler_iter Env.demo
          (create_ud_qp (RdmaCtrlImpl.init 3 8888) { node_id := 0, worker_id := 2, index := 0 }
            none (some { buf := 4096, key := 42 })).2
          { csfd := 5, wait_recv := true, recv_n := 16,
            arg := { type := ConnArgType.QP, mr_id := 0, qp_type := QPType.IBV_QPT_UD,
                     from_node := 2, from_worker := 0 } }).1
        = [Event.accept, Event.wait_recv, Event.recv, Event.lock, Event.unlock, Event.lock,
            Event.unlock, Event.lock, Event.unlock, Event.send_to, Event.wait_close] :=
  ⟨(connection_handler_lock_discipline Env.demo
      (create_ud_qp (RdmaCtrlImpl.init 3 8888) { node_id := 0, worker_id := 2, index := 0 }
        none (some { buf := 4096, key := 42 })).2
      { csfd := 5, wait_recv := true, recv_n := 16,
        arg := { type := ConnArgType.QP, mr_id := 0, qp_type := QPType.IBV_QPT_UD,
                 from_node := 2, from_worker := 0 } }).1,
    ((connection_handler_lock_discipline Env.demo
      (create_ud_qp (RdmaCtrlImpl.init 3 8888) { node_id := 0, worker_id := 2, index := 0 }
        none (some { buf := 4096, key := 42 })).2
      { csfd := 5, wait_recv := true, recv_n := 16,
        arg := { type := ConnArgType.QP, mr_id := 0, qp_type := QPType.IBV_QPT_UD,
                 from_node := 2, from_worker := 0 } }).2 _ rfl).1,
    rfl⟩

end rdmaio
